import Mathlib

/-
Verification of the request-lifecycle engine of proxy_server.py: the request
registry with its concurrency cap, the disconnect timeout watcher, the
reconnection handshake, the inbound frame router, the streaming chunk
coalescer, and the payload translator.  Every definition below is a shallow
embedding of the corresponding Python code; source line numbers are cited in
the comments.  Timestamps are modelled as natural numbers of milliseconds,
machine floats of seconds in the source.
-/

namespace ProxyServer

/-- Config.MAX_CONCURRENT_REQUESTS (src line 46). -/
def MAX_CONCURRENT_REQUESTS : Nat := 20

/-- Config.REQUEST_TIMEOUT_SECONDS (src line 45). -/
def REQUEST_TIMEOUT_SECONDS : Nat := 180

/-- Config.BACKPRESSURE_QUEUE_SIZE (src line 44). -/
def BACKPRESSURE_QUEUE_SIZE : Nat := 5

/-- enum RequestStatus (src lines 583-589). -/
inductive RequestStatus where
  | pending
  | sent_to_browser
  | processing
  | completed
  | timeout
  | error
deriving DecidableEq, Repr

/-- Lookup in a Python dict modelled as an association list (first binding wins;
states built by the operations below never hold duplicate keys). -/
def alLookup {α : Type} : List (String × α) → String → Option α
  | [], _ => none
  | (k, v) :: rest, key => if k = key then some v else alLookup rest key

/-- Python dict assignment: replace the binding if the key is present,
otherwise append a new binding. -/
def alInsert {α : Type} : List (String × α) → String → α → List (String × α)
  | [], key, v => [(key, v)]
  | (k, w) :: rest, key, v =>
      if k = key then (k, v) :: rest else (k, w) :: alInsert rest key v

/-- Python del of a dict key: drop the binding. -/
def alErase {α : Type} : List (String × α) → String → List (String × α)
  | [], _ => []
  | (k, w) :: rest, key => if k = key then rest else (k, w) :: alErase rest key

/-- An entry put on a per-request delivery queue (asyncio.Queue): either a raw
text frame routed from the browser, or an error dict put by the server itself
(timeout_request, disconnect cleanup). -/
inductive QMsg where
  | text (s : String)
  | errorPayload (msg : String)
deriving DecidableEq, Repr

/-- The shared mutable state the registry claims are about:
active is PersistentRequestManager.active_requests (id to status; the payload,
timestamps and flags of PersistentRequest are never read by these claims and
are omitted); queues maps each request id to the history of entries put on its
response_queue; channels is the key set of the module-level response_channels
dict.  In the source every binding response_channels[id] is the very
response_queue of the request with that id, so a key set suffices. -/
structure SrvState where
  active : List (String × RequestStatus)
  queues : List (String × List QMsg)
  channels : List String
deriving DecidableEq, Repr

def SrvState.empty : SrvState := ⟨[], [], []⟩

/-- queue.put on the delivery queue of rid.  A queue object exists for every
admitted request; putting to an id that never got one creates its history. -/
def putQ (s : SrvState) (rid : String) (m : QMsg) : SrvState :=
  match alLookup s.queues rid with
  | some l => { s with queues := alInsert s.queues rid (l ++ [m]) }
  | none => { s with queues := s.queues ++ [(rid, [m])] }

/-- The contents put so far on the delivery queue of rid. -/
def queueOf (s : SrvState) (rid : String) : List QMsg := (alLookup s.queues rid).getD []

def activeKeys (s : SrvState) : List String := s.active.map (fun p => p.1)

/-- HTTPException(status_code=503, detail="Too many concurrent requests"). -/
inductive AdmitError where
  | overloaded
deriving DecidableEq, Repr

/-- PersistentRequestManager.add_request (src lines 611-632): under the
manager lock, raise 503 when the live count has reached the cap, otherwise
insert a new PENDING request.  The fresh asyncio.Queue created by the caller
(src line 1212) is recorded as an empty put-history. -/
def add_request (s : SrvState) (rid : String) : Except AdmitError SrvState :=
  if MAX_CONCURRENT_REQUESTS ≤ s.active.length then
    Except.error AdmitError.overloaded
  else
    Except.ok { s with active := alInsert s.active rid RequestStatus.pending,
                       queues := alInsert s.queues rid [] }

/-- PersistentRequestManager.update_status (src lines 638-643): a no-op when
the id is unknown.  The last_activity_at timestamp is not modelled. -/
def update_status (s : SrvState) (rid : String) (st : RequestStatus) : SrvState :=
  if (alLookup s.active rid).isSome then
    { s with active := alInsert s.active rid st }
  else s

/-- PersistentRequestManager.mark_sent_to_browser (src lines 645-649). -/
def mark_sent_to_browser (s : SrvState) (rid : String) : SrvState :=
  update_status s rid RequestStatus.sent_to_browser

/-- PersistentRequestManager.complete_request (src lines 672-678): set the
status to COMPLETED and delete the entry; the net registry effect is removal.
Idempotent and a no-op for unknown ids. -/
def complete_request (s : SrvState) (rid : String) : SrvState :=
  if (alLookup s.active rid).isSome then
    { s with active := alErase s.active rid }
  else s

/-- The exact error message put by timeout_request (src line 660), with
Config.REQUEST_TIMEOUT_SECONDS interpolated. -/
def timeoutMessage : String :=
  "Request timed out after " ++ toString REQUEST_TIMEOUT_SECONDS ++
    " seconds. Browser may have disconnected during Cloudflare challenge."

/-- PersistentRequestManager.timeout_request (src lines 651-670): for a known
id, put one timeout error on its delivery queue and delete it from the
registry; a no-op for unknown ids. -/
def timeout_request (s : SrvState) (rid : String) : SrvState :=
  if (alLookup s.active rid).isSome then
    let s1 := putQ s rid (QMsg.errorPayload timeoutMessage)
    { s1 with active := alErase s1.active rid }
  else s

/-- Membership test of get_pending_requests (src lines 680-685). -/
def isPendingStatus : RequestStatus → Bool
  | RequestStatus.sent_to_browser => true
  | RequestStatus.processing => true
  | _ => false

/-- The key set of PersistentRequestManager.get_pending_requests
(src lines 680-685): ids in state SENT_TO_BROWSER or PROCESSING. -/
def get_pending_request_ids (s : SrvState) : List String :=
  (s.active.filter (fun p => isPendingStatus p.2)).map (fun p => p.1)

/-- PersistentRequestManager.request_timeout_watcher after its sleep of
REQUEST_TIMEOUT_SECONDS (src lines 687-702): for each watched id, when the
registry still knows it and its live status is SENT_TO_BROWSER or PROCESSING,
time it out.  In the source the watched dict aliases the live request objects
and ids are never reused, so the status consulted is the registry status. -/
def request_timeout_watcher : SrvState → List String → SrvState
  | s, [] => s
  | s, rid :: rest =>
      match alLookup s.active rid with
      | some rs =>
          if isPendingStatus rs then request_timeout_watcher (timeout_request s rid) rest
          else request_timeout_watcher s rest
      | none => request_timeout_watcher s rest

/-- The reconnection_handshake branch of websocket_endpoint
(src lines 1058-1080): for each id the browser still holds that the registry
knows, rebind response_channels[id] to the request queue, set the status to
PROCESSING, and count it as restored.  No entry is put on any queue. -/
def handshakeGo : SrvState → List String → Nat → SrvState × Nat
  | s, [], n => (s, n)
  | s, rid :: rest, n =>
      if (alLookup s.active rid).isSome then
        let s1 := { s with channels :=
          if rid ∈ s.channels then s.channels else s.channels ++ [rid] }
        handshakeGo (update_status s1 rid RequestStatus.processing) rest (n + 1)
      else handshakeGo s rest n

def handle_reconnection_handshake (s : SrvState) (browser_pending_ids : List String) :
    SrvState × Nat :=
  handshakeGo s browser_pending_ids 0

/-- The regular data-frame branch of websocket_endpoint (src lines 1094-1126):
update the status to PROCESSING when the id is truthy (a no-op for unknown
ids), route the frame to the bound channel queue, else restore the channel of
a known persistent request, else drop the frame.  A [DONE] payload completes
the request. -/
def websocket_data_frame (s : SrvState) (rid : String) (data : String) : SrvState :=
  let s := if rid ≠ "" then update_status s rid RequestStatus.processing else s
  if rid ∈ s.channels then
    let s := putQ s rid (QMsg.text data)
    if data = "[DONE]" then complete_request s rid else s
  else
    match alLookup s.active rid with
    | some _ =>
        let s := { s with channels := s.channels ++ [rid] }
        let s := putQ s rid (QMsg.text data)
        let s := update_status s rid RequestStatus.processing
        if data = "[DONE]" then complete_request s rid else s
    | none => s

/-- An admission or completion step on the registry, for the cap invariant. -/
inductive RegOp where
  | admitReq (rid : String)
  | complete (rid : String)
deriving DecidableEq, Repr

/-- Apply one registry operation; a refused admission (HTTPException raised
inside the manager lock before any mutation) leaves the state unchanged. -/
def applyRegOp (s : SrvState) (op : RegOp) : SrvState :=
  match op with
  | RegOp.admitReq rid =>
      match add_request s rid with
      | Except.ok s1 => s1
      | Except.error _ => s
  | RegOp.complete rid => complete_request s rid

def runRegOps (ops : List RegOp) : SrvState := ops.foldl applyRegOp SrvState.empty

/-! Stream generator (src lines 1328-1660).  The consumer loop of one request:
it drains the delivery queue with a 100 ms poll timeout, coalesces a0 deltas
into a buffer, and emits OpenAI-shaped chunks.  Times are Nat milliseconds. -/

/-- MIN_CHUNK_SIZE (src line 1357). -/
def MIN_CHUNK_SIZE : Nat := 40

/-- MAX_BUFFER_TIME of 0.5 s (src line 1359), in milliseconds. -/
def MAX_BUFFER_TIME_MS : Nat := 500

/-- One element of a decoded a2 media list: the source reads the keys image
and url of each item (src line 1455). -/
structure A2Item where
  image : Option String
  url : Option String
deriving DecidableEq, Repr

/-- One entry read from the delivery queue, classified exactly as the cascade
at src lines 1391-1505 dispatches on it:
done is the string [DONE]; errDict a dict bearing an error key (src 1395);
jsonErrorStr a string starting with an opening brace whose JSON carries an
error, with msg the message the code extracts from it (src 1414-1440);
nonString any other non-string entry, skipped (src 1445); a0, a2 and ad the
tagged frames with their JSON bodies decoded (a0 bodies are JSON strings);
otherTagged a well-split frame with any other tag, which matches no branch;
unparsable a string whose split or JSON decode raises, skipped (src 1503). -/
inductive RawData where
  | done
  | errDict (msg : String)
  | jsonErrorStr (msg : String)
  | nonString
  | a0 (delta : String)
  | a2 (items : List A2Item)
  | ad (finishReason : Option String)
  | otherTagged
  | unparsable
deriving DecidableEq, Repr

/-- One iteration of the consumer loop: either the awaited get returned an
entry at time t, or the 100 ms wait_for timed out at time t (src 1362-1365). -/
inductive StreamEvent where
  | recv (t : Nat) (d : RawData)
  | poll (t : Nat)
deriving DecidableEq, Repr

/-- What the generator yields.  chunk is a chat.completion.chunk carrying a
delta content flushed inside the loop at time t (src 1370-1386, 1472-1488);
flushFinal the residual-buffer chunk of the terminal phase (src 1516-1532);
mediaChunk the single image or video chunk (src 1546-1561); finalChunk the
empty-delta chunk with a finish_reason (src 1565-1577); errorOut an
OpenAI-shaped error, followed by the SSE [DONE] when withDone (src 1407-1410,
1436-1439); doneSentinel the SSE terminal (src 1580); completeJson the
non-streaming chat.completion object (src 1583-1603).  The id, created and
system_fingerprint fields carry fresh uuids and wall-clock values and are not
modelled. -/
inductive SSEOut where
  | chunk (t : Nat) (content : String)
  | flushFinal (content : String)
  | mediaChunk (content : String) (finish : String)
  | finalChunk (finish : String)
  | errorOut (msg : String) (withDone : Bool)
  | doneSentinel
  | completeJson (content : String) (finish : String)
deriving DecidableEq, Repr

/-- The loop-carried locals of stream_generator (src 1351-1359). -/
structure StreamState where
  streaming_buffer : String
  last_chunk_time : Nat
  accumulated_content : String
  media_urls : List String
  finish_reason : Option String
deriving DecidableEq, Repr

/-- How the loop ended: terminal on the [DONE] queue entry (break, src 1391),
earlyReturn after an error entry (src 1411, 1440), blocked when the modelled
schedule ran out while the generator is still awaiting the queue. -/
inductive LoopExit where
  | terminal (st : StreamState)
  | earlyReturn
  | blocked (st : StreamState)
deriving DecidableEq, Repr

/-- item.get of the a2 branch (src line 1455). -/
def a2Url (modelType : String) (item : A2Item) : Option String :=
  if modelType = "image" then item.image else item.url

/-- The a2 accumulation loop (src 1453-1458); a falsy (empty) url is skipped. -/
def collectA2 (modelType : String) (urls : List String) : List A2Item → List String
  | [] => urls
  | it :: rest =>
      match a2Url modelType it with
      | some u =>
          if u = "" then collectA2 modelType urls rest
          else collectA2 modelType (urls ++ [u]) rest
      | none => collectA2 modelType urls rest

/-- The while loop of stream_generator (src 1361-1511), one constructor of
StreamEvent per iteration.  Note the timeout-branch flush (src 1367-1388)
does not extend accumulated_content, matching the source. -/
def runLoop (modelType : String) (isStreaming : Bool) :
    StreamState → List StreamEvent → List SSEOut × LoopExit
  | st, [] => ([], LoopExit.blocked st)
  | st, StreamEvent.poll t :: rest =>
      if isStreaming ∧ modelType = "chat" ∧ st.streaming_buffer ≠ "" then
        if MAX_BUFFER_TIME_MS ≤ t - st.last_chunk_time then
          let out := SSEOut.chunk t st.streaming_buffer
          let st1 := { st with streaming_buffer := "", last_chunk_time := t }
          let r := runLoop modelType isStreaming st1 rest
          (out :: r.1, r.2)
        else runLoop modelType isStreaming st rest
      else runLoop modelType isStreaming st rest
  | st, StreamEvent.recv t d :: rest =>
      match d with
      | RawData.done => ([], LoopExit.terminal st)
      | RawData.errDict msg => ([SSEOut.errorOut msg isStreaming], LoopExit.earlyReturn)
      | RawData.jsonErrorStr msg => ([SSEOut.errorOut msg isStreaming], LoopExit.earlyReturn)
      | RawData.nonString => runLoop modelType isStreaming st rest
      | RawData.unparsable => runLoop modelType isStreaming st rest
      | RawData.otherTagged => runLoop modelType isStreaming st rest
      | RawData.a2 items =>
          if modelType = "image" ∨ modelType = "video" then
            runLoop modelType isStreaming
              { st with media_urls := collectA2 modelType st.media_urls items } rest
          else runLoop modelType isStreaming st rest
      | RawData.ad fr =>
          runLoop modelType isStreaming
            { st with finish_reason := some (fr.getD "stop") } rest
      | RawData.a0 delta =>
          if modelType = "chat" then
            if isStreaming then
              let buf := st.streaming_buffer ++ delta
              if MIN_CHUNK_SIZE ≤ buf.length ∨
                  (buf ≠ "" ∧ MAX_BUFFER_TIME_MS ≤ t - st.last_chunk_time) then
                let out := SSEOut.chunk t buf
                let st1 := { st with streaming_buffer := "",
                                     accumulated_content := st.accumulated_content ++ buf,
                                     last_chunk_time := t }
                let r := runLoop modelType isStreaming st1 rest
                (out :: r.1, r.2)
              else runLoop modelType isStreaming { st with streaming_buffer := buf } rest
            else
              runLoop modelType isStreaming
                { st with accumulated_content := st.accumulated_content ++ delta } rest
          else runLoop modelType isStreaming st rest

/-- Python: finish_reason or "stop" (src 1557, 1573, 1594); an unset or empty
finish reason is replaced by stop. -/
def pyOrStop (s : Option String) : String :=
  match s with
  | some v => if v = "" then "stop" else v
  | none => "stop"

/-- The terminal phase after the break (src 1513-1603): flush the residual
buffer for streaming chat, rebuild accumulated_content for media models, then
emit the closing chunk or the complete JSON object and the SSE sentinel. -/
def streamFinish (modelType : String) (isStreaming : Bool) (st : StreamState) : List SSEOut :=
  let fl :=
    if isStreaming ∧ modelType = "chat" ∧ st.streaming_buffer ≠ "" then
      ([SSEOut.flushFinal st.streaming_buffer],
       { st with accumulated_content := st.accumulated_content ++ st.streaming_buffer,
                 streaming_buffer := "" })
    else ([], st)
  let st1 := fl.2
  let st2 :=
    if modelType = "image" ∨ modelType = "video" then
      { st1 with accumulated_content :=
          (if modelType = "video" then String.intercalate "\n" st1.media_urls
           else String.intercalate "\n"
             (st1.media_urls.map (fun u => "![Generated Image](" ++ u ++ ")"))) }
    else st1
  if isStreaming then
    fl.1 ++
    (if modelType = "image" ∨ modelType = "video" then
        [SSEOut.mediaChunk st2.accumulated_content (pyOrStop st2.finish_reason)]
      else []) ++
    (if modelType = "chat" then [SSEOut.finalChunk (pyOrStop st2.finish_reason)] else []) ++
    [SSEOut.doneSentinel]
  else
    fl.1 ++ [SSEOut.completeJson st2.accumulated_content (pyOrStop st2.finish_reason)]

/-- stream_generator (src 1328-1660) as a function of the model type, the
streaming flag, the loop start time t0 (src 1358) and the schedule of queue
reads; returns the full emission sequence. -/
def stream_generator (modelType : String) (isStreaming : Bool) (t0 : Nat)
    (events : List StreamEvent) : List SSEOut :=
  match runLoop modelType isStreaming ⟨"", t0, "", [], none⟩ events with
  | (outs, LoopExit.terminal st) => outs ++ streamFinish modelType isStreaming st
  | (outs, _) => outs

/-- Concatenation, in arrival order, of the decoded payloads of the a0 frames
of a schedule. -/
def a0Concat : List StreamEvent → String
  | [] => ""
  | StreamEvent.recv _ (RawData.a0 d) :: rest => d ++ a0Concat rest
  | _ :: rest => a0Concat rest

/-- Concatenation, in emission order, of the delta contents of the emitted
chat.completion.chunk frames (loop flushes and the residual final flush; the
closing finish_reason chunk carries an empty delta). -/
def deltaConcat : List SSEOut → String
  | [] => ""
  | SSEOut.chunk _ c :: rest => c ++ deltaConcat rest
  | SSEOut.flushFinal c :: rest => c ++ deltaConcat rest
  | _ :: rest => deltaConcat rest

/-- Queue entries rendered as an error by the generator. -/
def isErrorEntry : RawData → Bool
  | RawData.errDict _ => true
  | RawData.jsonErrorStr _ => true
  | _ => false

/-- The schedule runs to the [DONE] sentinel: the last event is the receipt of
done, and no earlier entry is done or an error entry. -/
def runsToDone : List StreamEvent → Bool
  | [] => false
  | StreamEvent.recv _ RawData.done :: rest => rest.isEmpty
  | StreamEvent.recv _ d :: rest => !isErrorEntry d && runsToDone rest
  | StreamEvent.poll _ :: rest => runsToDone rest

/-- The coalescing property of an emission sequence: threading the time of
the previous flush (starting from the loop start time), every loop-flushed
chunk either carries at least MIN_CHUNK_SIZE characters or was flushed at
least MAX_BUFFER_TIME_MS after the previous flush. -/
def chunkTimesOK : Nat → List SSEOut → Bool
  | _, [] => true
  | last, SSEOut.chunk t c :: rest =>
      (decide (MIN_CHUNK_SIZE ≤ c.length) || decide (MAX_BUFFER_TIME_MS ≤ t - last)) &&
        chunkTimesOK t rest
  | last, _ :: rest => chunkTimesOK last rest

/-- The fields of the POST /v1/chat/completions body the admission path reads
for the response shape (src lines 1183-1186). -/
structure ChatCompletionsBody where
  stream : Option Bool
deriving DecidableEq, Repr

/-- is_streaming of chat_completions: openai_req.get("stream", True)
(src line 1185). -/
def body_is_streaming (b : ChatCompletionsBody) : Bool := b.stream.getD true

/-- media_type of chat_completions (src line 1236). -/
def response_media_type (b : ChatCompletionsBody) : String :=
  if body_is_streaming b then "text/event-stream" else "application/json"

/-! Payload translator: create_lmarena_request_body (src lines 1663-1766). -/

/-- A single quote character as a string, used to render Python list reprs. -/
def sq : String := String.singleton (Char.ofNat 39)

/-- Python str of a list of strings, as produced when a list is interpolated
into an f-string: brackets around the comma-joined single-quoted reprs. -/
def pyStrList (l : List String) : String :=
  "[" ++ String.intercalate ", " (l.map (fun x => sq ++ x ++ sq)) ++ "]"

/-- The word-character class of the regex fragment backslash-w, restricted to
the ASCII inputs mime subtypes consist of. -/
def isWordChar (c : Char) : Bool := c.isAlphanum || c == '_'

/-- The character class of the base64 group of the findall pattern. -/
def isB64Char (c : Char) : Bool := c.isAlphanum || c == '+' || c == '/' || c == '='

/-- re.match of the anchored pattern data:(image/w+);base64,(.*) against a
url (src line 1690): on success, the mime type group and the body group.  The
dot of the trailing group stops at a newline; re.match does not require the
match to span the whole string. -/
def matchImageDataUrl (u : String) : Option (String × String) :=
  let cs := u.toList
  if ("data:image/".toList).isPrefixOf cs then
    let r := cs.drop 11
    let w := r.takeWhile isWordChar
    if w = [] then none
    else
      let r2 := r.drop w.length
      if (";base64,".toList).isPrefixOf r2 then
        some ("image/" ++ String.mk w, String.mk ((r2.drop 8).takeWhile (fun c => c ≠ '\n')))
      else none
  else none

/-- One attempt of the findall pattern data:(image/w+);base64,([b64]+) at the
head of the character list: on success the mime group, the base64 group
(greedy, nonempty) and the remainder after the match. -/
def tryMatchB64At (cs : List Char) : Option (String × String × List Char) :=
  if ("data:image/".toList).isPrefixOf cs then
    let r := cs.drop 11
    let w := r.takeWhile isWordChar
    if w = [] then none
    else
      let r2 := r.drop w.length
      if (";base64,".toList).isPrefixOf r2 then
        let b := (r2.drop 8).takeWhile isB64Char
        if b = [] then none
        else some ("image/" ++ String.mk w, String.mk b, (r2.drop 8).drop b.length)
      else none
  else none

/-- The left-to-right non-overlapping scan shared by re.findall (src 1702) and
re.sub (src 1710): collect every match in order and keep the unmatched
characters.  The fuel argument bounds the recursion by the list length. -/
def scanGo : Nat → List Char → List (String × String) × List Char
  | 0, cs => ([], cs)
  | _ + 1, [] => ([], [])
  | fuel + 1, c :: cs =>
      match tryMatchB64At (c :: cs) with
      | some (m, b, rest) =>
          let p := scanGo fuel rest
          ((m, b) :: p.1, p.2)
      | none =>
          let p := scanGo fuel cs
          (p.1, c :: p.2)

/-- re.findall of the base64 data-url pattern over string content (src 1702). -/
def findall_b64_data_urls (s : String) : List (String × String) :=
  (scanGo s.toList.length s.toList).1

/-- re.sub of the same pattern with the empty replacement (src 1710). -/
def sub_b64_data_urls (s : String) : String :=
  String.mk (scanGo s.toList.length s.toList).2

/-- Python str.strip() on the whitespace alphabet of these inputs. -/
def pyStrip (s : String) : String := s.trim

/-- Python str.split with a one-character separator: cut at every slash,
keeping empty segments. -/
def splitSlashGo : List Char → List Char → List (List Char)
  | [], acc => [acc.reverse]
  | c :: cs, acc =>
      if c = '/' then acc.reverse :: splitSlashGo cs []
      else splitSlashGo cs (c :: acc)

/-- mime_type.split applied to the slash (src 1693, 1706). -/
def pySplitSlash (s : String) : List String :=
  (splitSlashGo s.toList []).map (fun l => String.mk l)

/-- One attachment appended to files_to_upload (src 1695, 1708): the fileName
interpolates the uuid and the raw result of mime_type.split, which in the
source is the whole list (the subscript selecting the subtype is missing), so
the rendered name ends in the Python repr of the two-element list; the base64
body is stored under the key data. -/
structure FileUpload where
  fileName : String
  contentType : String
  data : String
deriving DecidableEq, Repr

/-- Builds the attachment dict of src lines 1693-1695 and 1706-1708 for a
matched mime type and base64 body, with the fresh uuid hex supplied. -/
def makeFileUpload (mime b64 uuid : String) : FileUpload :=
  { fileName := "upload-" ++ uuid ++ "." ++ pyStrList (pySplitSlash mime),
    contentType := mime,
    data := b64 }

/-- A part of a multimodal content array: a text part carrying its text field
(defaulting to empty), an image_url part carrying the nested url, or a part of
any other type, which the loop ignores. -/
inductive Part where
  | text (s : String)
  | image_url (u : String)
  | other
deriving DecidableEq, Repr

/-- An OpenAI message content: a string, a multimodal array, or any other
JSON value, passed through untouched (src 1715-1717). -/
inductive Content where
  | str (s : String)
  | parts (l : List Part)
  | other
deriving DecidableEq, Repr

/-- An inbound OpenAI chat message; a missing role key behaves like a role
equal to no known value and is modelled by any non-matching string. -/
structure OAIMessage where
  role : String
  content : Content
deriving DecidableEq, Repr

/-- The multimodal-content loop (src 1684-1695): collect text fields of text
parts in order, and turn each image_url whose url matches the anchored
data-url pattern into an attachment, consuming one uuid (supplied by index)
per attachment.  Returns the text parts, the attachments and the next uuid
index. -/
def processParts (supply : Nat → String) : List Part → Nat → List String × List FileUpload × Nat
  | [], ctr => ([], [], ctr)
  | Part.text s :: rest, ctr =>
      let r := processParts supply rest ctr
      (s :: r.1, r.2.1, r.2.2)
  | Part.image_url u :: rest, ctr =>
      match matchImageDataUrl u with
      | some mb =>
          let r := processParts supply rest (ctr + 1)
          (r.1, makeFileUpload mb.1 mb.2 (supply ctr) :: r.2.1, r.2.2)
      | none => processParts supply rest ctr
  | Part.other :: rest, ctr => processParts supply rest ctr

/-- The per-match attachment construction of the string-content branch
(src 1705-1708), consuming one uuid per match in order. -/
def buildUploads (supply : Nat → String) : List (String × String) → Nat → List FileUpload
  | [], _ => []
  | (m, b) :: rest, ctr => makeFileUpload m b (supply ctr) :: buildUploads supply rest (ctr + 1)

/-- Processing of one message (src 1678-1717): a multimodal array becomes the
newline-join of its text parts with its data-url images extracted; a string
with data-url matches has them extracted and stripped from the text (the
strip applies only when at least one match was found); any other content is
passed through untouched. -/
def processMessage (supply : Nat → String) (msg : OAIMessage) (ctr : Nat) :
    OAIMessage × List FileUpload × Nat :=
  match msg.content with
  | Content.parts l =>
      let r := processParts supply l ctr
      ({ msg with content := Content.str (String.intercalate "\n" r.1) }, r.2.1, r.2.2)
  | Content.str s =>
      let ms := findall_b64_data_urls s
      if ms.isEmpty then ({ msg with content := Content.str s }, [], ctr)
      else
        ({ msg with content := Content.str (pyStrip (sub_b64_data_urls s)) },
         buildUploads supply ms ctr, ctr + ms.length)
  | Content.other => (msg, [], ctr)

/-- The message loop of src lines 1678-1717 over the whole list, threading the
uuid index and concatenating the attachments in order. -/
def processMessages (supply : Nat → String) :
    List OAIMessage → Nat → List OAIMessage × List FileUpload × Nat
  | [], ctr => ([], [], ctr)
  | m :: rest, ctr =>
      let r1 := processMessage supply m ctr
      let r2 := processMessages supply rest r1.2.2
      (r1.1 :: r2.1, r1.2.1 ++ r2.2.1, r2.2.2)

/-- last_user_message_index (src 1720-1724): the greatest index whose message
has role user, none when there is no such message (the sentinel -1). -/
def lastUserIndex : List OAIMessage → Option Nat
  | [] => none
  | m :: rest =>
      match lastUserIndex rest with
      | some k => some (k + 1)
      | none => if m.role = "user" then some 0 else none

/-- Python list.insert(i, x): insert before index i, appending when i exceeds
the length (src 1731). -/
def pyInsert {α : Type} : List α → Nat → α → List α
  | l, 0, x => x :: l
  | [], _ + 1, x => [x]
  | h :: t, n + 1, x => h :: pyInsert t n x

/-- Role coercion of the arena build (src 1741-1742). -/
def coerceRole (r : String) : String :=
  if r = "user" ∨ r = "assistant" ∨ r = "data" then r else "user"

/-- One entry of the Arena message graph (src 1744-1749). -/
structure ArenaMessage where
  id : String
  role : String
  content : Content
  experimental_attachments : List String
  parentMessageIds : List String
  participantPosition : String
  modelId : Option String
  evaluationSessionId : String
  status : String
  failureReason : Option String
deriving DecidableEq, Repr

/-- The record built for the message at index i (src 1744-1749). -/
def arenaOfMessage (evaluation_id model_id : String) (ids : List String)
    (i : Nat) (msg : OAIMessage) : ArenaMessage :=
  { id := ids.getD i "",
    role := coerceRole msg.role,
    content := msg.content,
    experimental_attachments := [],
    parentMessageIds := if i = 0 then [] else [ids.getD (i - 1) ""],
    participantPosition := "a",
    modelId := if coerceRole msg.role = "assistant" then some model_id else none,
    evaluationSessionId := evaluation_id,
    status := "pending",
    failureReason := none }

/-- The enumerate loop building arena_messages (src 1736-1749). -/
def buildArenaGo (evaluation_id model_id : String) (ids : List String) :
    Nat → List OAIMessage → List ArenaMessage
  | _, [] => []
  | i, msg :: rest =>
      arenaOfMessage evaluation_id model_id ids i msg ::
        buildArenaGo evaluation_id model_id ids (i + 1) rest

/-- The message_ids list comprehension (src 1737): one fresh uuid per
processed message, consumed from the supply starting at index ctr. -/
def mkIds (supply : Nat → String) (ctr n : Nat) : List String :=
  (List.range n).map (fun i => supply (ctr + i))

/-- The evaluation payload (src 1760-1764). -/
structure LMArenaPayload where
  id : String
  mode : String
  modelAId : String
  userMessageId : String
  modelAMessageId : String
  messages : List ArenaMessage
  modality : String
deriving DecidableEq, Repr

/-- A model registry entry: the id and type keys the translator reads
(src 1670-1671), either possibly absent. -/
structure ModelInfo where
  id : Option String
  type : Option String
deriving DecidableEq, Repr

/-- The fields of the client payload the translator reads. -/
structure OpenAIReq where
  model : String
  messages : List OAIMessage
deriving DecidableEq, Repr

/-- The synthetic-message step (src 1719-1733): for chat modality with at
least one user-role message, insert the empty user message right after the
last user message; otherwise leave the list alone. -/
def processedWithSynthetic (modality : String) (processed0 : List OAIMessage) :
    List OAIMessage :=
  if modality = "chat" then
    match lastUserIndex processed0 with
    | some k => pyInsert processed0 (k + 1) ⟨"user", Content.str " "⟩
    | none => processed0
  else processed0

/-- The final placeholder assistant message appended for the reserved model
slot (src 1753-1758). -/
def placeholderMessage (evaluation_id model_id parent mid : String) : ArenaMessage :=
  { id := mid, role := "assistant", content := Content.str "",
    experimental_attachments := [], parentMessageIds := [parent],
    participantPosition := "a", modelId := some model_id,
    evaluationSessionId := evaluation_id, status := "pending", failureReason := none }

/-- user_message_id and the uuid index that remains after computing it
(src 1751): the id of the last processed message, or a fresh uuid when the
processed list is empty. -/
def userMessageIdOf (supply : Nat → String) (message_ids : List String) (ctr2 : Nat) :
    String × Nat :=
  match message_ids.getLast? with
  | some x => (x, ctr2)
  | none => (supply ctr2, ctr2 + 1)

/-- The body of create_lmarena_request_body after the registry lookup has
succeeded (src 1669-1766). -/
def create_lmarena_body_ok (model_info : ModelInfo) (req : OpenAIReq)
    (supply : Nat → String) : LMArenaPayload × List FileUpload :=
  let model_id := model_info.id.getD req.model
  let modality := model_info.type.getD "chat"
  let evaluation_id := supply 0
  let pm := processMessages supply req.messages 1
  let processed := processedWithSynthetic modality pm.1
  let message_ids := mkIds supply pm.2.2 processed.length
  let ctr2 := pm.2.2 + processed.length
  let arena := buildArenaGo evaluation_id model_id message_ids 0 processed
  let umi := userMessageIdOf supply message_ids ctr2
  let model_a_message_id := supply umi.2
  ({ id := evaluation_id, mode := "direct", modelAId := model_id,
     userMessageId := umi.1, modelAMessageId := model_a_message_id,
     messages := arena ++
       [placeholderMessage evaluation_id model_id umi.1 model_a_message_id],
     modality := modality },
   pm.2.1)

/-- create_lmarena_request_body (src 1663-1766).  Uuid generation is the only
nondeterminism; it is supplied as an indexed stream consumed in source order:
index 0 is the evaluation id, then one per extracted attachment, then one per
processed message, then (only when the message list is empty) the fallback
user message id, then the reserved assistant slot id.  The missing-model
ValueError becomes the error branch. -/
def create_lmarena_request_body (registry : List (String × ModelInfo))
    (req : OpenAIReq) (supply : Nat → String) :
    Except String (LMArenaPayload × List FileUpload) :=
  match alLookup registry req.model with
  | none =>
      Except.error ("Model " ++ sq ++ req.model ++ sq ++
        " not found in registry. Available models: " ++
        pyStrList (registry.map (fun p => p.1)))
  | some model_info => Except.ok (create_lmarena_body_ok model_info req supply)

/-- Reference reading of the spec sentence: the text parts of a multimodal
array, in order.  Compared against the single-pass loop processParts. -/
def spec_textParts : List Part → List String
  | [] => []
  | Part.text s :: rest => s :: spec_textParts rest
  | _ :: rest => spec_textParts rest

/-- Reference reading of the spec sentence: the mime and base64 groups of the
image_url parts whose url matches the anchored data-url pattern, in order. -/
def spec_dataUrlMatches : List Part → List (String × String)
  | [] => []
  | Part.image_url u :: rest =>
      match matchImageDataUrl u with
      | some mb => mb :: spec_dataUrlMatches rest
      | none => spec_dataUrlMatches rest
  | _ :: rest => spec_dataUrlMatches rest

/-- Reference reading of the claim for C7: the id of the last arena message
whose role is user. -/
def spec_lastUserMessageId : List ArenaMessage → Option String
  | [] => none
  | m :: rest =>
      match spec_lastUserMessageId rest with
      | some x => some x
      | none => if m.role = "user" then some m.id else none

/-! Concrete fixtures used by witnesses and counterexamples. -/

/-- A registry at the concurrency cap: twenty live requests. -/
def capState : SrvState :=
  ⟨(List.range 20).map (fun i => (toString i, RequestStatus.pending)), [], []⟩

/-- A dispatched request R whose queue already received one data frame. -/
def disconnectState : SrvState :=
  ⟨[("R", RequestStatus.sent_to_browser)], [("R", [QMsg.text "a0:\"He\""])], ["R"]⟩

/-- A registry holding one dispatched request R with an empty queue, as left
when the agent link drops right after dispatch. -/
def reconnectState : SrvState :=
  ⟨[("R", RequestStatus.sent_to_browser)], [("R", [])], []⟩

/-- A state knowing request A only, for the unknown-frame claim. -/
def routeState : SrvState :=
  ⟨[("A", RequestStatus.processing)], [("A", [])], ["A"]⟩

/-- A small streaming schedule that runs to the [DONE] sentinel. -/
def doneSchedule : List StreamEvent :=
  [StreamEvent.recv 0 (RawData.a0 "He"),
   StreamEvent.recv 10 (RawData.a0 "llo"),
   StreamEvent.poll 600,
   StreamEvent.recv 700 (RawData.ad (some "stop")),
   StreamEvent.recv 800 RawData.done]

/-- A deterministic uuid supply for concrete evaluations. -/
def uSupply : Nat → String := fun n => "u" ++ toString n

/-- A registry with one chat model M whose descriptor id is mid. -/
def cexRegistry : List (String × ModelInfo) := [("M", ⟨some "mid", some "chat"⟩)]

/-- A conversation ending in an assistant message, for the parent-id claim. -/
def cexReqC7 : OpenAIReq :=
  ⟨"M", [⟨"user", Content.str "hi"⟩, ⟨"assistant", Content.str "ok"⟩]⟩

/-- A request with one embedded base64 image, for the attachment claim. -/
def cexReqC8 : OpenAIReq :=
  ⟨"M", [⟨"user", Content.parts
    [Part.text "look", Part.image_url "data:image/png;base64,iVBORw0KGgo="]⟩]⟩

/-- The filename the source actually produces for a png attachment whose uuid
is u1: the dot is followed by the Python repr of the full split list. -/
def buggyPngName : String :=
  "upload-u1.[" ++ sq ++ "image" ++ sq ++ ", " ++ sq ++ "png" ++ sq ++ "]"

/-- A chat request whose single user message is plain text. -/
def cexReqC6 : OpenAIReq := ⟨"M", [⟨"user", Content.str "hi"⟩]⟩

/-- A registry with one image model. -/
def cexRegistryImage : List (String × ModelInfo) := [("Mimg", ⟨some "iid", some "image"⟩)]

/-- An image request with a user message, for the no-insertion claim. -/
def cexReqImage : OpenAIReq := ⟨"Mimg", [⟨"user", Content.str "draw"⟩]⟩

/-- A body that omits the stream field. -/
def noStreamBody : ChatCompletionsBody := ⟨none⟩

/-- A string content with one embedded data url between two words. -/
def strWithUrl : String := "before data:image/png;base64,QUJD after"

/-! Association-list lemmas shared by the registry proofs. -/

theorem alLookup_alInsert_self {α : Type} (l : List (String × α)) (k : String) (v : α) :
    alLookup (alInsert l k v) k = some v := by
  induction l with
  | nil => simp [alInsert, alLookup]
  | cons h t ih =>
      obtain ⟨k1, v1⟩ := h
      by_cases hk : k1 = k
      · simp [alInsert, hk, alLookup]
      · simp [alInsert, hk, alLookup, ih]

theorem alLookup_alInsert_ne {α : Type} (l : List (String × α)) {k k2 : String} (v : α)
    (h : k ≠ k2) : alLookup (alInsert l k v) k2 = alLookup l k2 := by
  induction l with
  | nil => simp [alInsert, alLookup, h]
  | cons hd t ih =>
      obtain ⟨k1, v1⟩ := hd
      by_cases hk : k1 = k
      · subst hk
        simp [alInsert, alLookup, h]
      · simp [alInsert, hk, alLookup, ih]

theorem alLookup_alErase_ne {α : Type} (l : List (String × α)) {k k2 : String}
    (h : k ≠ k2) : alLookup (alErase l k) k2 = alLookup l k2 := by
  induction l with
  | nil => simp [alErase]
  | cons hd t ih =>
      obtain ⟨k1, v1⟩ := hd
      by_cases hk : k1 = k
      · subst hk
        simp [alErase, alLookup, h]
      · simp [alErase, hk, alLookup, ih]

theorem alLookup_eq_none_of_not_mem_keys {α : Type} (l : List (String × α)) (k : String)
    (h : k ∉ l.map Prod.fst) : alLookup l k = none := by
  induction l with
  | nil => simp [alLookup]
  | cons hd t ih =>
      obtain ⟨k1, v1⟩ := hd
      simp only [List.map_cons, List.mem_cons] at h
      push_neg at h
      have hne : ¬ k1 = k := fun he => h.1 he.symm
      simp only [alLookup, if_neg hne]
      exact ih h.2

theorem alLookup_alErase_self {α : Type} (l : List (String × α)) (k : String)
    (h : (l.map Prod.fst).Nodup) : alLookup (alErase l k) k = none := by
  induction l with
  | nil => simp [alErase, alLookup]
  | cons hd t ih =>
      obtain ⟨k1, v1⟩ := hd
      simp only [List.map_cons, List.nodup_cons] at h
      by_cases hk : k1 = k
      · subst hk
        simp only [alErase, if_pos rfl]
        exact alLookup_eq_none_of_not_mem_keys t k1 h.1
      · simp [alErase, hk, alLookup, ih h.2]

theorem alLookup_mem {α : Type} {l : List (String × α)} {k : String} {v : α}
    (h : alLookup l k = some v) : (k, v) ∈ l := by
  induction l with
  | nil => simp [alLookup] at h
  | cons hd t ih =>
      obtain ⟨k1, v1⟩ := hd
      by_cases hk : k1 = k
      · subst hk
        have hv : v1 = v := by simpa [alLookup] using h
        subst hv
        exact List.mem_cons_self _ _
      · simp only [alLookup, if_neg hk] at h
        exact List.mem_cons_of_mem _ (ih h)

theorem length_alInsert_le {α : Type} (l : List (String × α)) (k : String) (v : α) :
    (alInsert l k v).length ≤ l.length + 1 := by
  induction l with
  | nil => simp [alInsert]
  | cons hd t ih =>
      obtain ⟨k1, v1⟩ := hd
      by_cases hk : k1 = k
      · simp [alInsert, hk]
      · simpa [alInsert, hk, Nat.succ_le_succ_iff] using ih

theorem length_alErase_le {α : Type} (l : List (String × α)) (k : String) :
    (alErase l k).length ≤ l.length := by
  induction l with
  | nil => simp [alErase]
  | cons hd t ih =>
      obtain ⟨k1, v1⟩ := hd
      by_cases hk : k1 = k
      · simp [alErase, hk]
      · simpa [alErase, hk, Nat.succ_le_succ_iff] using ih

theorem keys_alErase_sublist {α : Type} (l : List (String × α)) (k : String) :
    ((alErase l k).map Prod.fst).Sublist (l.map Prod.fst) := by
  induction l with
  | nil => simp [alErase]
  | cons hd t ih =>
      obtain ⟨k1, v1⟩ := hd
      by_cases hk : k1 = k
      · simp only [alErase, if_pos hk, List.map_cons]
        exact List.Sublist.cons _ (List.Sublist.refl _)
      · simp only [alErase, if_neg hk, List.map_cons]
        exact ih.cons₂ _

theorem keys_alInsert_of_lookup {α : Type} (l : List (String × α)) (k : String) (v : α)
    (h : (alLookup l k).isSome) : (alInsert l k v).map Prod.fst = l.map Prod.fst := by
  induction l with
  | nil => simp [alLookup] at h
  | cons hd t ih =>
      obtain ⟨k1, v1⟩ := hd
      by_cases hk : k1 = k
      · simp [alInsert, hk]
      · simp only [alLookup, if_neg hk] at h
        simp [alInsert, hk, ih h]

/-- C1, part one: the step of an admit or complete operation preserves the
cap bound on the live count. -/
theorem applyRegOp_cap (s : SrvState) (op : RegOp)
    (h : s.active.length ≤ MAX_CONCURRENT_REQUESTS) :
    (applyRegOp s op).active.length ≤ MAX_CONCURRENT_REQUESTS := by
  cases op with
  | admitReq rid =>
      by_cases hc : MAX_CONCURRENT_REQUESTS ≤ s.active.length
      · simpa [applyRegOp, add_request, hc] using h
      · have hlt : s.active.length < MAX_CONCURRENT_REQUESTS := Nat.lt_of_not_le hc
        simp only [applyRegOp, add_request, if_neg hc]
        calc (alInsert s.active rid RequestStatus.pending).length
            ≤ s.active.length + 1 := length_alInsert_le _ _ _
          _ ≤ MAX_CONCURRENT_REQUESTS := hlt
  | complete rid =>
      simp only [applyRegOp, complete_request]
      by_cases hm : (alLookup s.active rid).isSome
      · simp only [if_pos hm]
        exact le_trans (length_alErase_le _ _) h
      · simp only [if_neg hm]
        exact h

/-- C1: for every sequence of admissions and completions started from the
empty registry, the live count never exceeds MAX_CONCURRENT_REQUESTS; and an
admission attempted at the cap raises the 503 overload error inside the lock,
before any mutation, so the step leaves the registry unchanged. -/
theorem cap_invariant_and_overload_refusal :
    (∀ ops : List RegOp, (runRegOps ops).active.length ≤ MAX_CONCURRENT_REQUESTS) ∧
    (∀ (s : SrvState) (rid : String), MAX_CONCURRENT_REQUESTS ≤ s.active.length →
      add_request s rid = Except.error AdmitError.overloaded ∧
        applyRegOp s (RegOp.admitReq rid) = s) := by
  constructor
  · intro ops
    suffices h : ∀ (l : List RegOp) (s : SrvState),
        s.active.length ≤ MAX_CONCURRENT_REQUESTS →
        (l.foldl applyRegOp s).active.length ≤ MAX_CONCURRENT_REQUESTS by
      exact h ops SrvState.empty (by simp [SrvState.empty])
    intro l
    induction l with
    | nil => intro s hs; simpa using hs
    | cons op rest ih =>
        intro s hs
        exact ih (applyRegOp s op) (applyRegOp_cap s op hs)
  · intro s rid h
    refine ⟨?_, ?_⟩
    · simp [add_request, if_pos h]
    · simp [applyRegOp, add_request, if_pos h]

/-- Witness for the overload half of the cap claim, at a registry holding
twenty live requests. -/
theorem cap_invariant_witness :
    MAX_CONCURRENT_REQUESTS ≤ capState.active.length ∧
      add_request capState "x" = Except.error AdmitError.overloaded ∧
      applyRegOp capState (RegOp.admitReq "x") = capState :=
  ⟨by decide,
   (cap_invariant_and_overload_refusal.2 capState "x" (by decide)).1,
   (cap_invariant_and_overload_refusal.2 capState "x" (by decide)).2⟩

/-! Lemmas on delivery queues and the timeout machinery. -/

theorem alLookup_append_some {α : Type} {l1 : List (String × α)} (l2 : List (String × α))
    {k : String} {v : α} (h : alLookup l1 k = some v) : alLookup (l1 ++ l2) k = some v := by
  induction l1 with
  | nil => simp [alLookup] at h
  | cons hd t ih =>
      obtain ⟨k1, v1⟩ := hd
      by_cases hk : k1 = k
      · simp only [alLookup, if_pos hk] at h
        simp only [List.cons_append, alLookup, if_pos hk]
        exact h
      · simp only [alLookup, if_neg hk] at h
        simp only [List.cons_append, alLookup, if_neg hk]
        exact ih h

theorem alLookup_append_none {α : Type} {l1 : List (String × α)} (l2 : List (String × α))
    {k : String} (h : alLookup l1 k = none) : alLookup (l1 ++ l2) k = alLookup l2 k := by
  induction l1 with
  | nil => simp
  | cons hd t ih =>
      obtain ⟨k1, v1⟩ := hd
      by_cases hk : k1 = k
      · simp [alLookup, hk] at h
      · simp only [alLookup, if_neg hk] at h
        simp only [List.cons_append, alLookup, if_neg hk]
        exact ih h

theorem putQ_active (s : SrvState) (rid : String) (m : QMsg) :
    (putQ s rid m).active = s.active := by
  unfold putQ
  cases alLookup s.queues rid <;> rfl

theorem putQ_channels (s : SrvState) (rid : String) (m : QMsg) :
    (putQ s rid m).channels = s.channels := by
  unfold putQ
  cases alLookup s.queues rid <;> rfl

theorem queueOf_putQ_self (s : SrvState) (rid : String) (m : QMsg) :
    queueOf (putQ s rid m) rid = queueOf s rid ++ [m] := by
  unfold putQ queueOf
  cases hq : alLookup s.queues rid with
  | some l => simp [alLookup_alInsert_self, hq]
  | none =>
      simp only [hq]
      rw [alLookup_append_none _ hq]
      simp [alLookup]

theorem queueOf_putQ_ne (s : SrvState) {rid r2 : String} (m : QMsg) (h : rid ≠ r2) :
    queueOf (putQ s rid m) r2 = queueOf s r2 := by
  unfold putQ
  cases hq : alLookup s.queues rid with
  | some l =>
      unfold queueOf
      simp only
      rw [alLookup_alInsert_ne _ _ h]
  | none =>
      unfold queueOf
      simp only
      cases h2 : alLookup s.queues r2 with
      | some l2 =>
          rw [alLookup_append_some _ h2]
      | none =>
          rw [alLookup_append_none _ h2]
          simp [alLookup, h]

theorem timeout_request_lookup_self (s : SrvState) (rid : String)
    (hn : (activeKeys s).Nodup) :
    alLookup (timeout_request s rid).active rid = none := by
  unfold timeout_request
  by_cases hm : (alLookup s.active rid).isSome
  · simp only [if_pos hm, putQ_active]
    exact alLookup_alErase_self _ _ hn
  · simp only [if_neg hm]
    exact Option.not_isSome_iff_eq_none.mp hm

theorem timeout_request_queue_self (s : SrvState) (rid : String)
    (hm : (alLookup s.active rid).isSome) :
    queueOf (timeout_request s rid) rid =
      queueOf s rid ++ [QMsg.errorPayload timeoutMessage] := by
  unfold timeout_request
  simp only [if_pos hm]
  exact queueOf_putQ_self s rid _

theorem timeout_request_lookup_ne (s : SrvState) {rid r2 : String} (h : rid ≠ r2) :
    alLookup (timeout_request s rid).active r2 = alLookup s.active r2 := by
  unfold timeout_request
  by_cases hm : (alLookup s.active rid).isSome
  · simp only [if_pos hm, putQ_active]
    exact alLookup_alErase_ne _ h
  · simp [if_neg hm]

theorem timeout_request_queue_ne (s : SrvState) {rid r2 : String} (h : rid ≠ r2) :
    queueOf (timeout_request s rid) r2 = queueOf s r2 := by
  unfold timeout_request
  by_cases hm : (alLookup s.active rid).isSome
  · simp only [if_pos hm]
    show queueOf (putQ s rid (QMsg.errorPayload timeoutMessage)) r2 = queueOf s r2
    exact queueOf_putQ_ne s _ h
  · simp [if_neg hm]

theorem timeout_request_keys_nodup (s : SrvState) (rid : String)
    (hn : (activeKeys s).Nodup) : (activeKeys (timeout_request s rid)).Nodup := by
  unfold timeout_request
  by_cases hm : (alLookup s.active rid).isSome
  · simp only [if_pos hm, activeKeys, putQ_active]
    exact hn.sublist (keys_alErase_sublist _ _)
  · simpa [if_neg hm] using hn

/-- Requests not on the watch list are untouched by the timeout watcher. -/
theorem watcher_frame (watch : List String) (s : SrvState) (rid : String)
    (h : rid ∉ watch) :
    alLookup (request_timeout_watcher s watch).active rid = alLookup s.active rid ∧
      queueOf (request_timeout_watcher s watch) rid = queueOf s rid := by
  induction watch generalizing s with
  | nil => simp [request_timeout_watcher]
  | cons x rest ih =>
      have hxr : x ≠ rid := fun he => h (by simp [he])
      have hr : rid ∉ rest := fun hm => h (List.mem_cons_of_mem _ hm)
      show alLookup (request_timeout_watcher s (x :: rest)).active rid = _ ∧ _
      unfold request_timeout_watcher
      cases hx : alLookup s.active x with
      | some rs =>
          by_cases hp : isPendingStatus rs
          · simp only [hp, if_true]
            have := ih (timeout_request s x) hr
            rw [this.1, this.2, timeout_request_lookup_ne s hxr, timeout_request_queue_ne s hxr]
            exact ⟨rfl, rfl⟩
          · simp only [hp, if_false]
            exact ih s hr
      | none => exact ih s hr

/-- A request the watcher finds pending is timed out exactly once: its
registry entry is removed and precisely one timeout error is appended to its
delivery queue. -/
theorem watcher_times_out (watch : List String) (s : SrvState) (rid : String)
    (st : RequestStatus) (hw : watch.Nodup) (hn : (activeKeys s).Nodup)
    (hmem : rid ∈ watch) (hl : alLookup s.active rid = some st)
    (hp : isPendingStatus st = true) :
    alLookup (request_timeout_watcher s watch).active rid = none ∧
      queueOf (request_timeout_watcher s watch) rid =
        queueOf s rid ++ [QMsg.errorPayload timeoutMessage] := by
  induction watch generalizing s with
  | nil => simp at hmem
  | cons x rest ih =>
      rw [List.nodup_cons] at hw
      by_cases hx : x = rid
      · subst hx
        show alLookup (request_timeout_watcher s (x :: rest)).active x = _ ∧ _
        unfold request_timeout_watcher
        simp only [hl, hp, if_true]
        have hfr := watcher_frame rest (timeout_request s x) x hw.1
        rw [hfr.1, hfr.2, timeout_request_lookup_self s x hn,
          timeout_request_queue_self s x (by simp [hl])]
        exact ⟨rfl, rfl⟩
      · have hmem2 : rid ∈ rest := by
          cases List.mem_cons.mp hmem with
          | inl he => exact absurd he.symm hx
          | inr hm => exact hm
        show alLookup (request_timeout_watcher s (x :: rest)).active rid = _ ∧ _
        unfold request_timeout_watcher
        cases hx2 : alLookup s.active x with
        | some rs =>
            by_cases hp2 : isPendingStatus rs
            · simp only [hp2, if_true]
              have hl2 : alLookup (timeout_request s x).active rid = some st := by
                rw [timeout_request_lookup_ne s hx, hl]
              have hrec := ih (timeout_request s x) hw.2
                (timeout_request_keys_nodup s x hn) hmem2 hl2
              rw [hrec.1, hrec.2, timeout_request_queue_ne s hx]
              exact ⟨rfl, rfl⟩
            · simp only [hp2, if_false]
              exact ih s hw.2 hn hmem2 hl
        | none => exact ih s hw.2 hn hmem2 hl

theorem pending_ids_nodup (s : SrvState) (hn : (activeKeys s).Nodup) :
    (get_pending_request_ids s).Nodup := by
  unfold get_pending_request_ids activeKeys at *
  exact hn.sublist (List.Sublist.map _ (List.filter_sublist s.active))

theorem mem_pending_ids (s : SrvState) (rid : String) (st : RequestStatus)
    (hl : alLookup s.active rid = some st) (hp : isPendingStatus st = true) :
    rid ∈ get_pending_request_ids s := by
  unfold get_pending_request_ids
  have hm : (rid, st) ∈ s.active := alLookup_mem hl
  have hm2 : (rid, st) ∈ s.active.filter (fun p => isPendingStatus p.2) :=
    List.mem_filter.mpr ⟨hm, hp⟩
  exact List.mem_map.mpr ⟨(rid, st), hm2, rfl⟩

/-- C4: when the agent link dies outside shutdown and nothing rescues the
requests, the watcher spawned by handle_browser_disconnect fires after
REQUEST_TIMEOUT_SECONDS on the pending set captured at disconnect; every
request then in SENT_TO_BROWSER or PROCESSING is removed from the registry
and receives exactly one error entry, whose message is the 180-second
Cloudflare timeout text. -/
theorem disconnect_timeout (s : SrvState) (rid : String) (st : RequestStatus)
    (hn : (activeKeys s).Nodup) (hl : alLookup s.active rid = some st)
    (hp : isPendingStatus st = true) :
    alLookup (request_timeout_watcher s (get_pending_request_ids s)).active rid = none ∧
      queueOf (request_timeout_watcher s (get_pending_request_ids s)) rid =
        queueOf s rid ++ [QMsg.errorPayload timeoutMessage] ∧
      timeoutMessage = "Request timed out after 180 seconds. Browser may have disconnected during Cloudflare challenge." := by
  have h := watcher_times_out (get_pending_request_ids s) s rid st
    (pending_ids_nodup s hn) hn (mem_pending_ids s rid st hl hp) hl hp
  exact ⟨h.1, h.2, by decide⟩

/-- Witness for the disconnect-timeout claim: a dispatched request R whose
queue already holds one data frame gains exactly the timeout error and leaves
the registry. -/
theorem disconnect_timeout_witness :
    (activeKeys disconnectState).Nodup ∧
      alLookup (request_timeout_watcher disconnectState
        (get_pending_request_ids disconnectState)).active "R" = none ∧
      queueOf (request_timeout_watcher disconnectState
          (get_pending_request_ids disconnectState)) "R" =
        queueOf disconnectState "R" ++ [QMsg.errorPayload timeoutMessage] :=
  ⟨by decide,
   (disconnect_timeout disconnectState "R" RequestStatus.sent_to_browser
      (by decide) (by decide) (by decide)).1,
   (disconnect_timeout disconnectState "R" RequestStatus.sent_to_browser
      (by decide) (by decide) (by decide)).2.1⟩

/-! Lemmas on status updates and the reconnection handshake. -/

theorem update_status_queues (s : SrvState) (rid : String) (st : RequestStatus) :
    (update_status s rid st).queues = s.queues := by
  unfold update_status
  by_cases hm : (alLookup s.active rid).isSome
  · simp [hm]
  · simp [hm]

theorem update_status_lookup_self (s : SrvState) (rid : String) (st : RequestStatus)
    (hm : (alLookup s.active rid).isSome) :
    alLookup (update_status s rid st).active rid = some st := by
  unfold update_status
  simp only [if_pos hm]
  exact alLookup_alInsert_self _ _ _

theorem update_status_lookup_ne (s : SrvState) {rid r2 : String} (st : RequestStatus)
    (h : rid ≠ r2) :
    alLookup (update_status s rid st).active r2 = alLookup s.active r2 := by
  unfold update_status
  by_cases hm : (alLookup s.active rid).isSome
  · simp only [if_pos hm]
    exact alLookup_alInsert_ne _ _ h
  · simp [hm]

theorem update_status_keys (s : SrvState) (rid : String) (st : RequestStatus) :
    activeKeys (update_status s rid st) = activeKeys s := by
  unfold update_status
  by_cases hm : (alLookup s.active rid).isSome
  · simp only [if_pos hm, activeKeys]
    exact keys_alInsert_of_lookup _ _ _ hm
  · simp [hm]

theorem handshakeGo_queues (ids : List String) (s : SrvState) (n : Nat) :
    (handshakeGo s ids n).1.queues = s.queues := by
  induction ids generalizing s n with
  | nil => rfl
  | cons x rest ih =>
      show (handshakeGo s (x :: rest) n).1.queues = s.queues
      unfold handshakeGo
      by_cases hx : (alLookup s.active x).isSome
      · simp only [if_pos hx]
        rw [ih, update_status_queues]
      · simp only [if_neg hx]
        exact ih s n

theorem handshakeGo_keys (ids : List String) (s : SrvState) (n : Nat) :
    activeKeys (handshakeGo s ids n).1 = activeKeys s := by
  induction ids generalizing s n with
  | nil => rfl
  | cons x rest ih =>
      show activeKeys (handshakeGo s (x :: rest) n).1 = activeKeys s
      unfold handshakeGo
      by_cases hx : (alLookup s.active x).isSome
      · simp only [if_pos hx]
        rw [ih, update_status_keys]
        rfl
      · simp only [if_neg hx]
        exact ih s n

theorem handshakeGo_processing (ids : List String) (s : SrvState) (n : Nat) (rid : String)
    (h : alLookup s.active rid = some RequestStatus.processing) :
    alLookup (handshakeGo s ids n).1.active rid = some RequestStatus.processing := by
  induction ids generalizing s n with
  | nil => exact h
  | cons x rest ih =>
      show alLookup (handshakeGo s (x :: rest) n).1.active rid = _
      unfold handshakeGo
      by_cases hx : (alLookup s.active x).isSome
      · simp only [if_pos hx]
        apply ih
        by_cases hxr : x = rid
        · subst hxr
          exact update_status_lookup_self _ _ _ hx
        · rw [update_status_lookup_ne _ _ hxr]
          exact h
      · simp only [if_neg hx]
        exact ih s n h

theorem handshakeGo_restores (ids : List String) (s : SrvState) (n : Nat) (rid : String)
    (hmem : rid ∈ ids) (h : (alLookup s.active rid).isSome) :
    alLookup (handshakeGo s ids n).1.active rid = some RequestStatus.processing := by
  induction ids generalizing s n with
  | nil => simp at hmem
  | cons x rest ih =>
      show alLookup (handshakeGo s (x :: rest) n).1.active rid = _
      unfold handshakeGo
      by_cases hxr : x = rid
      · subst hxr
        simp only [if_pos h]
        exact handshakeGo_processing rest _ _ x (update_status_lookup_self _ _ _ h)
      · have hmem2 : rid ∈ rest := by
          cases List.mem_cons.mp hmem with
          | inl he => exact absurd he.symm hxr
          | inr hm => exact hm
        by_cases hx : (alLookup s.active x).isSome
        · simp only [if_pos hx]
          apply ih _ _ hmem2
          rw [update_status_lookup_ne _ _ hxr]
          exact h
        · simp only [if_neg hx]
          exact ih s n hmem2 h

theorem complete_request_queues (s : SrvState) (rid : String) :
    (complete_request s rid).queues = s.queues := by
  unfold complete_request
  by_cases hm : (alLookup s.active rid).isSome
  · simp [hm]
  · simp [hm]

theorem complete_request_lookup_self (s : SrvState) (rid : String)
    (hn : (activeKeys s).Nodup) :
    alLookup (complete_request s rid).active rid = none := by
  unfold complete_request
  by_cases hm : (alLookup s.active rid).isSome
  · simp only [if_pos hm]
    exact alLookup_alErase_self _ _ hn
  · simp only [if_neg hm]
    exact Option.not_isSome_iff_eq_none.mp hm

/-- The watcher never touches the queue of a request the registry no longer
knows. -/
theorem watcher_skips_absent (watch : List String) (s : SrvState) (rid : String)
    (h : alLookup s.active rid = none) :
    queueOf (request_timeout_watcher s watch) rid = queueOf s rid := by
  induction watch generalizing s with
  | nil => rfl
  | cons x rest ih =>
      show queueOf (request_timeout_watcher s (x :: rest)) rid = _
      unfold request_timeout_watcher
      cases hx : alLookup s.active x with
      | some rs =>
          have hxr : x ≠ rid := by
            intro he
            rw [he, h] at hx
            exact Option.noConfusion hx
          by_cases hp : isPendingStatus rs
          · simp only [hp, if_true]
            rw [ih (timeout_request s x) (by rw [timeout_request_lookup_ne s hxr]; exact h)]
            exact timeout_request_queue_ne s hxr
          · simp only [hp, if_false]
            exact ih s h
      | none => exact ih s h

/-- C5 counterexample: request R is dispatched when the link dies; the agent
reconnects within the grace window and its handshake restores R (restored
count one, status Processing, nothing on the queue yet), but the watcher
captured at disconnect is not cancelled, finds R still in a pending state at
the 180-second mark, and does emit the timeout error frame to the client of
R.  This falsifies the claim that no error frame is ever emitted for a
restored request. -/
theorem reconnect_error_counterexample :
    (handle_reconnection_handshake reconnectState ["R"]).2 = 1 ∧
      alLookup (handle_reconnection_handshake reconnectState ["R"]).1.active "R" =
        some RequestStatus.processing ∧
      queueOf (handle_reconnection_handshake reconnectState ["R"]).1 "R" = [] ∧
      queueOf (request_timeout_watcher (handle_reconnection_handshake reconnectState ["R"]).1
          (get_pending_request_ids reconnectState)) "R" =
        [QMsg.errorPayload timeoutMessage] := by
  decide

/-- C5 as amended: the reconnection handshake restores every id it lists that
the registry still knows to PROCESSING without emitting anything on any
delivery queue; and no error frame is ever emitted for a restored request
provided it reaches a terminal state (complete_request) before the
grace-window watcher fires, since the watcher skips ids the registry no
longer knows.  A restored request still pending when the watcher fires is
timed out (see the counterexample). -/
theorem reconnect_restoration_amended (s : SrvState) (ids : List String) (rid : String)
    (hn : (activeKeys s).Nodup) (hmem : rid ∈ ids)
    (h : (alLookup s.active rid).isSome) :
    alLookup (handle_reconnection_handshake s ids).1.active rid =
        some RequestStatus.processing ∧
      (handle_reconnection_handshake s ids).1.queues = s.queues ∧
      (∀ watch : List String,
        queueOf (request_timeout_watcher
            (complete_request (handle_reconnection_handshake s ids).1 rid) watch) rid =
          queueOf s rid) := by
  refine ⟨handshakeGo_restores ids s 0 rid hmem h, handshakeGo_queues ids s 0, ?_⟩
  intro watch
  have hn1 : (activeKeys (handle_reconnection_handshake s ids).1).Nodup := by
    unfold handle_reconnection_handshake
    rw [handshakeGo_keys]
    exact hn
  rw [watcher_skips_absent watch _ rid
    (complete_request_lookup_self _ rid hn1)]
  unfold queueOf
  rw [complete_request_queues]
  unfold handle_reconnection_handshake
  rw [handshakeGo_queues]

/-- Witness for the amended restoration claim at the concrete reconnect
state. -/
theorem reconnect_restoration_witness :
    (activeKeys reconnectState).Nodup ∧ "R" ∈ ["R"] ∧
      (alLookup reconnectState.active "R").isSome ∧
      alLookup (handle_reconnection_handshake reconnectState ["R"]).1.active "R" =
        some RequestStatus.processing ∧
      queueOf (request_timeout_watcher
          (complete_request (handle_reconnection_handshake reconnectState ["R"]).1 "R")
          ["R"]) "R" = queueOf reconnectState "R" :=
  ⟨by decide, by decide, by decide,
   (reconnect_restoration_amended reconnectState ["R"] "R" (by decide) (by decide)
      (by decide)).1,
   (reconnect_restoration_amended reconnectState ["R"] "R" (by decide) (by decide)
      (by decide)).2.2 ["R"]⟩

/-- C9: an inbound data frame whose request id is neither bound in
response_channels nor known to the registry, including any id already
completed, is dropped: the handler returns the state unchanged, so no queue,
registry or channel mutation occurs. -/
theorem unknown_frame_dropped (s : SrvState) (rid data : String)
    (hc : rid ∉ s.channels) (ha : alLookup s.active rid = none) :
    websocket_data_frame s rid data = s := by
  unfold websocket_data_frame
  have h1 : update_status s rid RequestStatus.processing = s := by
    unfold update_status
    simp [ha]
  simp only [h1, ite_self]
  rw [if_neg hc]
  simp [ha]

/-- Witness for the dropped-frame claim: a frame for unknown id B leaves the
state that knows only request A untouched. -/
theorem unknown_frame_dropped_witness :
    ("B" ∉ routeState.channels) ∧ alLookup routeState.active "B" = none ∧
      websocket_data_frame routeState "B" "a0:\"x\"" = routeState :=
  ⟨by decide, by decide,
   unknown_frame_dropped routeState "B" "a0:\"x\"" (by decide) (by decide)⟩

/-! Lemmas on the stream generator. -/

theorem chunkTimesOK_append (l1 l2 : List SSEOut) (t : Nat)
    (h1 : chunkTimesOK t l1 = true) (h2 : ∀ t2, chunkTimesOK t2 l2 = true) :
    chunkTimesOK t (l1 ++ l2) = true := by
  induction l1 generalizing t with
  | nil => simpa using h2 t
  | cons x rest ih =>
      cases x with
      | chunk tc c =>
          simp only [chunkTimesOK, Bool.and_eq_true] at h1
          simp only [List.cons_append, chunkTimesOK, Bool.and_eq_true]
          exact ⟨h1.1, ih tc h1.2⟩
      | flushFinal c =>
          simp only [chunkTimesOK] at h1
          simpa only [List.cons_append, chunkTimesOK] using ih t h1
      | mediaChunk c f =>
          simp only [chunkTimesOK] at h1
          simpa only [List.cons_append, chunkTimesOK] using ih t h1
      | finalChunk f =>
          simp only [chunkTimesOK] at h1
          simpa only [List.cons_append, chunkTimesOK] using ih t h1
      | errorOut m w =>
          simp only [chunkTimesOK] at h1
          simpa only [List.cons_append, chunkTimesOK] using ih t h1
      | doneSentinel =>
          simp only [chunkTimesOK] at h1
          simpa only [List.cons_append, chunkTimesOK] using ih t h1
      | completeJson c f =>
          simp only [chunkTimesOK] at h1
          simpa only [List.cons_append, chunkTimesOK] using ih t h1

theorem streamFinish_chunkTimesOK (mt : String) (b : Bool) (st : StreamState) (t2 : Nat) :
    chunkTimesOK t2 (streamFinish mt b st) = true := by
  unfold streamFinish
  split_ifs <;> simp [chunkTimesOK]

/-- Every chunk flushed inside the streaming chat loop satisfies the
coalescing bound relative to the previous flush time carried in the state. -/
theorem runLoop_chunkTimes (events : List StreamEvent) (st : StreamState) :
    chunkTimesOK st.last_chunk_time (runLoop "chat" true st events).1 = true := by
  induction events generalizing st with
  | nil => simp [runLoop, chunkTimesOK]
  | cons e rest ih =>
      cases e with
      | poll t =>
          by_cases hb : st.streaming_buffer ≠ ""
          · by_cases ht : MAX_BUFFER_TIME_MS ≤ t - st.last_chunk_time
            · have hout : (runLoop "chat" true st (StreamEvent.poll t :: rest)).1 =
                  SSEOut.chunk t st.streaming_buffer ::
                    (runLoop "chat" true
                      { st with streaming_buffer := "", last_chunk_time := t } rest).1 := by
                simp [runLoop, hb, ht]
              rw [hout]
              simp only [chunkTimesOK, Bool.and_eq_true]
              refine ⟨by simp [ht], ?_⟩
              simpa using ih { st with streaming_buffer := "", last_chunk_time := t }
            · have hout : (runLoop "chat" true st (StreamEvent.poll t :: rest)).1 =
                  (runLoop "chat" true st rest).1 := by
                simp [runLoop, hb, ht]
              rw [hout]
              exact ih st
          · have hout : (runLoop "chat" true st (StreamEvent.poll t :: rest)).1 =
                (runLoop "chat" true st rest).1 := by
              simp [runLoop, hb]
            rw [hout]
            exact ih st
      | recv t d =>
          cases d with
          | done => simp [runLoop, chunkTimesOK]
          | errDict msg => simp [runLoop, chunkTimesOK]
          | jsonErrorStr msg => simp [runLoop, chunkTimesOK]
          | nonString => simpa [runLoop] using ih st
          | unparsable => simpa [runLoop] using ih st
          | otherTagged => simpa [runLoop] using ih st
          | a2 items => simpa [runLoop] using ih st
          | ad fr =>
              have hout : (runLoop "chat" true st
                    (StreamEvent.recv t (RawData.ad fr) :: rest)).1 =
                  (runLoop "chat" true
                    { st with finish_reason := some (fr.getD "stop") } rest).1 := by
                simp [runLoop]
              rw [hout]
              simpa using ih { st with finish_reason := some (fr.getD "stop") }
          | a0 delta =>
              by_cases hc : MIN_CHUNK_SIZE ≤ (st.streaming_buffer ++ delta).length ∨
                  (st.streaming_buffer ++ delta ≠ "" ∧
                    MAX_BUFFER_TIME_MS ≤ t - st.last_chunk_time)
              · have hout : (runLoop "chat" true st
                      (StreamEvent.recv t (RawData.a0 delta) :: rest)).1 =
                    SSEOut.chunk t (st.streaming_buffer ++ delta) ::
                      (runLoop "chat" true { st with streaming_buffer := "", accumulated_content := st.accumulated_content ++ (st.streaming_buffer ++ delta), last_chunk_time := t } rest).1 := by
                  simp only [runLoop]
                  rw [if_pos hc]
                  simp
                rw [hout]
                simp only [chunkTimesOK, Bool.and_eq_true]
                constructor
                · simp only [Bool.or_eq_true, decide_eq_true_eq]
                  rcases hc with h | h
                  · exact Or.inl h
                  · exact Or.inr h.2
                · simpa using ih { st with streaming_buffer := "", accumulated_content := st.accumulated_content ++ (st.streaming_buffer ++ delta), last_chunk_time := t }
              · have hout : (runLoop "chat" true st
                      (StreamEvent.recv t (RawData.a0 delta) :: rest)).1 =
                    (runLoop "chat" true
                      { st with streaming_buffer := st.streaming_buffer ++ delta } rest).1 := by
                  simp only [runLoop]
                  rw [if_neg hc]
                  simp
                rw [hout]
                simpa using ih { st with streaming_buffer := st.streaming_buffer ++ delta }

/-- C3: in a streaming chat response, every chunk flushed between the start
of the loop and the terminal carries at least MIN_CHUNK_SIZE characters
unless at least MAX_BUFFER_TIME_MS elapsed since the previous flush; the
residual flush of the terminal phase is exempt.  This holds for every
schedule of queue reads and poll timeouts. -/
theorem streaming_chunk_coalescing (t0 : Nat) (events : List StreamEvent) :
    chunkTimesOK t0 (stream_generator "chat" true t0 events) = true := by
  unfold stream_generator
  have hmain := runLoop_chunkTimes events ⟨"", t0, "", [], none⟩
  cases hr : runLoop "chat" true ⟨"", t0, "", [], none⟩ events with
  | mk outs ex =>
      rw [hr] at hmain
      cases ex with
      | terminal st =>
          simp only
          exact chunkTimesOK_append outs _ t0 hmain
            (streamFinish_chunkTimesOK "chat" true st)
      | earlyReturn => exact hmain
      | blocked st => exact hmain

theorem deltaConcat_append (l1 l2 : List SSEOut) :
    deltaConcat (l1 ++ l2) = deltaConcat l1 ++ deltaConcat l2 := by
  induction l1 with
  | nil => simp [deltaConcat]
  | cons x rest ih =>
      cases x <;>
        simp [deltaConcat, ih, String.append_assoc]

/-- The streaming chat loop preserves the a0 text: the deltas emitted so far
plus the residual buffer equal the starting buffer plus the a0 payloads, and
a schedule that runs to [DONE] ends the loop in the terminal exit. -/
theorem runLoop_concat (events : List StreamEvent) (st : StreamState)
    (h : runsToDone events = true) :
    ∃ outs stF, runLoop "chat" true st events = (outs, LoopExit.terminal stF) ∧
      deltaConcat outs ++ stF.streaming_buffer =
        st.streaming_buffer ++ a0Concat events := by
  induction events generalizing st with
  | nil => simp [runsToDone] at h
  | cons e rest ih =>
      cases e with
      | poll t =>
          have hrest : runsToDone rest = true := by simpa [runsToDone] using h
          by_cases hb : st.streaming_buffer ≠ ""
          · by_cases ht : MAX_BUFFER_TIME_MS ≤ t - st.last_chunk_time
            · obtain ⟨outs, stF, he, hc⟩ :=
                ih { st with streaming_buffer := "", last_chunk_time := t } hrest
              refine ⟨SSEOut.chunk t st.streaming_buffer :: outs, stF, ?_, ?_⟩
              · simp [runLoop, hb, ht, he]
              · simp only [deltaConcat, a0Concat, String.append_assoc]
                rw [hc]
                simp [String.empty_append]
            · obtain ⟨outs, stF, he, hc⟩ := ih st hrest
              exact ⟨outs, stF, by simp [runLoop, hb, ht, he], by simpa [a0Concat] using hc⟩
          · obtain ⟨outs, stF, he, hc⟩ := ih st hrest
            exact ⟨outs, stF, by simp [runLoop, hb, he], by simpa [a0Concat] using hc⟩
      | recv t d =>
          cases d with
          | done =>
              have hrest : rest = [] := by
                simpa [runsToDone, List.isEmpty_iff] using h
              subst hrest
              refine ⟨[], st, by simp [runLoop], ?_⟩
              simp [deltaConcat, a0Concat, String.empty_append, String.append_empty]
          | errDict msg => simp [runsToDone, isErrorEntry] at h
          | jsonErrorStr msg => simp [runsToDone, isErrorEntry] at h
          | nonString =>
              have hrest : runsToDone rest = true := by
                simpa [runsToDone, isErrorEntry] using h
              obtain ⟨outs, stF, he, hc⟩ := ih st hrest
              exact ⟨outs, stF, by simp [runLoop, he], by simpa [a0Concat] using hc⟩
          | unparsable =>
              have hrest : runsToDone rest = true := by
                simpa [runsToDone, isErrorEntry] using h
              obtain ⟨outs, stF, he, hc⟩ := ih st hrest
              exact ⟨outs, stF, by simp [runLoop, he], by simpa [a0Concat] using hc⟩
          | otherTagged =>
              have hrest : runsToDone rest = true := by
                simpa [runsToDone, isErrorEntry] using h
              obtain ⟨outs, stF, he, hc⟩ := ih st hrest
              exact ⟨outs, stF, by simp [runLoop, he], by simpa [a0Concat] using hc⟩
          | a2 items =>
              have hrest : runsToDone rest = true := by
                simpa [runsToDone, isErrorEntry] using h
              obtain ⟨outs, stF, he, hc⟩ := ih st hrest
              refine ⟨outs, stF, ?_, by simpa [a0Concat] using hc⟩
              simpa [runLoop] using he
          | ad fr =>
              have hrest : runsToDone rest = true := by
                simpa [runsToDone, isErrorEntry] using h
              obtain ⟨outs, stF, he, hc⟩ :=
                ih { st with finish_reason := some (fr.getD "stop") } hrest
              refine ⟨outs, stF, ?_, ?_⟩
              · simpa [runLoop] using he
              · simpa [a0Concat] using hc
          | a0 delta =>
              have hrest : runsToDone rest = true := by
                simpa [runsToDone, isErrorEntry] using h
              by_cases hcnd : MIN_CHUNK_SIZE ≤ (st.streaming_buffer ++ delta).length ∨
                  (st.streaming_buffer ++ delta ≠ "" ∧
                    MAX_BUFFER_TIME_MS ≤ t - st.last_chunk_time)
              · obtain ⟨outs, stF, he, hc⟩ :=
                  ih { st with streaming_buffer := "", accumulated_content := st.accumulated_content ++ (st.streaming_buffer ++ delta), last_chunk_time := t } hrest
                refine ⟨SSEOut.chunk t (st.streaming_buffer ++ delta) :: outs, stF, ?_, ?_⟩
                · simp only [runLoop]
                  rw [if_pos hcnd]
                  simp [he]
                · simp only [deltaConcat, a0Concat, String.append_assoc]
                  rw [hc]
                  simp [String.empty_append]
              · obtain ⟨outs, stF, he, hc⟩ :=
                  ih { st with streaming_buffer := st.streaming_buffer ++ delta } hrest
                refine ⟨outs, stF, ?_, ?_⟩
                · simp only [runLoop]
                  rw [if_neg hcnd]
                  simp [he]
                · rw [hc]
                  simp [a0Concat, String.append_assoc]

/-- In the terminal phase of a streaming chat response the only delta content
emitted is the residual buffer. -/
theorem streamFinish_deltaConcat (st : StreamState) :
    deltaConcat (streamFinish "chat" true st) = st.streaming_buffer := by
  unfold streamFinish
  by_cases hb : st.streaming_buffer ≠ ""
  · simp [hb, deltaConcat]
  · simp only [ne_eq, not_not] at hb
    simp [hb, deltaConcat]

/-- C2: for a streaming chat request whose queue schedule runs to the [DONE]
sentinel with no error entry, the concatenation of the delta contents of the
emitted chunks, in emission order, equals the concatenation of the decoded
a0 payloads, in arrival order. -/
theorem streaming_delta_concat (t0 : Nat) (events : List StreamEvent)
    (h : runsToDone events = true) :
    deltaConcat (stream_generator "chat" true t0 events) = a0Concat events := by
  unfold stream_generator
  obtain ⟨outs, stF, he, hc⟩ := runLoop_concat events ⟨"", t0, "", [], none⟩ h
  rw [he]
  simp only
  rw [deltaConcat_append, streamFinish_deltaConcat]
  simpa [String.empty_append] using hc

/-- Witness for the delta-concatenation claim on a concrete schedule. -/
theorem streaming_delta_concat_witness :
    runsToDone doneSchedule = true ∧
      deltaConcat (stream_generator "chat" true 0 doneSchedule) = a0Concat doneSchedule :=
  ⟨by decide, streaming_delta_concat 0 doneSchedule (by decide)⟩

theorem runLoop_no_completeJson (mt : String) (events : List StreamEvent)
    (st : StreamState) (c f : String) :
    SSEOut.completeJson c f ∉ (runLoop mt true st events).1 := by
  induction events generalizing st with
  | nil => simp [runLoop]
  | cons e rest ih =>
      cases e with
      | poll t =>
          by_cases hb : mt = "chat" ∧ ¬st.streaming_buffer = ""
          · by_cases ht : MAX_BUFFER_TIME_MS ≤ t - st.last_chunk_time
            · have hout : (runLoop mt true st (StreamEvent.poll t :: rest)).1 =
                  SSEOut.chunk t st.streaming_buffer ::
                    (runLoop mt true
                      { st with streaming_buffer := "", last_chunk_time := t } rest).1 := by
                simp [runLoop, hb.1, hb.2, ht]
              rw [hout]
              simp only [List.mem_cons]
              rintro (hcon | hmem)
              · exact SSEOut.noConfusion hcon
              · exact ih _ hmem
            · have hout : (runLoop mt true st (StreamEvent.poll t :: rest)).1 =
                  (runLoop mt true st rest).1 := by simp [runLoop, hb.1, hb.2, ht]
              rw [hout]
              exact ih st
          · have hout : (runLoop mt true st (StreamEvent.poll t :: rest)).1 =
                (runLoop mt true st rest).1 := by
              rcases not_and_or.mp hb with hmt | hbuf
              · simp [runLoop, hmt]
              · simp only [not_not] at hbuf
                simp [runLoop, hbuf]
            rw [hout]
            exact ih st
      | recv t d =>
          cases d with
          | done => simp [runLoop]
          | errDict msg => simp [runLoop]
          | jsonErrorStr msg => simp [runLoop]
          | nonString => simpa [runLoop] using ih st
          | unparsable => simpa [runLoop] using ih st
          | otherTagged => simpa [runLoop] using ih st
          | ad fr =>
              have hout : (runLoop mt true st
                    (StreamEvent.recv t (RawData.ad fr) :: rest)).1 =
                  (runLoop mt true
                    { st with finish_reason := some (fr.getD "stop") } rest).1 := by
                simp [runLoop]
              rw [hout]
              exact ih _
          | a2 items =>
              by_cases hm : mt = "image" ∨ mt = "video"
              · have hout : (runLoop mt true st
                      (StreamEvent.recv t (RawData.a2 items) :: rest)).1 =
                    (runLoop mt true
                      { st with media_urls := collectA2 mt st.media_urls items } rest).1 := by
                  simp [runLoop, hm]
                rw [hout]
                exact ih _
              · have hout : (runLoop mt true st
                      (StreamEvent.recv t (RawData.a2 items) :: rest)).1 =
                    (runLoop mt true st rest).1 := by
                  simp [runLoop, hm]
                rw [hout]
                exact ih st
          | a0 delta =>
              by_cases hmt : mt = "chat"
              · subst hmt
                by_cases hcnd : MIN_CHUNK_SIZE ≤ (st.streaming_buffer ++ delta).length ∨
                    (st.streaming_buffer ++ delta ≠ "" ∧
                      MAX_BUFFER_TIME_MS ≤ t - st.last_chunk_time)
                · have hout : (runLoop "chat" true st
                        (StreamEvent.recv t (RawData.a0 delta) :: rest)).1 =
                      SSEOut.chunk t (st.streaming_buffer ++ delta) ::
                        (runLoop "chat" true { st with streaming_buffer := "", accumulated_content := st.accumulated_content ++ (st.streaming_buffer ++ delta), last_chunk_time := t } rest).1 := by
                    simp only [runLoop]
                    rw [if_pos hcnd]
                    simp
                  rw [hout]
                  simp only [List.mem_cons]
                  rintro (hcon | hmem)
                  · exact SSEOut.noConfusion hcon
                  · exact ih _ hmem
                · have hout : (runLoop "chat" true st
                        (StreamEvent.recv t (RawData.a0 delta) :: rest)).1 =
                      (runLoop "chat" true
                        { st with streaming_buffer := st.streaming_buffer ++ delta } rest).1 := by
                    simp only [runLoop]
                    rw [if_neg hcnd]
                    simp
                  rw [hout]
                  exact ih _
              · have hout : (runLoop mt true st
                      (StreamEvent.recv t (RawData.a0 delta) :: rest)).1 =
                    (runLoop mt true st rest).1 := by
                  simp [runLoop, hmt]
                rw [hout]
                exact ih st

theorem streamFinish_no_completeJson (mt : String) (st : StreamState) (c f : String) :
    SSEOut.completeJson c f ∉ streamFinish mt true st := by
  unfold streamFinish
  split_ifs <;> simp_all

/-- C10: a body that omits the stream field is treated as streaming; the
response carries the text/event-stream media type, and a streaming generator
run never emits the single non-streaming chat.completion JSON object. -/
theorem stream_default_true (b : ChatCompletionsBody) (h : b.stream = none) :
    body_is_streaming b = true ∧ response_media_type b = "text/event-stream" ∧
      (∀ (mt : String) (t0 : Nat) (events : List StreamEvent) (c f : String),
        SSEOut.completeJson c f ∉ stream_generator mt true t0 events) := by
  refine ⟨by simp [body_is_streaming, h], by simp [response_media_type, body_is_streaming, h], ?_⟩
  intro mt t0 events c f
  unfold stream_generator
  have hmain := runLoop_no_completeJson mt events ⟨"", t0, "", [], none⟩ c f
  cases hr : runLoop mt true ⟨"", t0, "", [], none⟩ events with
  | mk outs ex =>
      rw [hr] at hmain
      cases ex with
      | terminal st =>
          simp only [List.mem_append]
          rintro (hmem | hmem)
          · exact hmain hmem
          · exact streamFinish_no_completeJson mt st c f hmem
      | earlyReturn => exact hmain
      | blocked st => exact hmain

/-- Witness for the streaming-default claim on a body omitting stream. -/
theorem stream_default_true_witness :
    noStreamBody.stream = none ∧ body_is_streaming noStreamBody = true ∧
      response_media_type noStreamBody = "text/event-stream" ∧
      SSEOut.completeJson "x" "stop" ∉ stream_generator "chat" true 0 doneSchedule :=
  ⟨rfl,
   (stream_default_true noStreamBody rfl).1,
   (stream_default_true noStreamBody rfl).2.1,
   (stream_default_true noStreamBody rfl).2.2 "chat" 0 doneSchedule "x" "stop"⟩

/-! Lemmas on the payload translator. -/

theorem processMessage_role (supply : Nat → String) (m : OAIMessage) (ctr : Nat) :
    (processMessage supply m ctr).1.role = m.role := by
  obtain ⟨r, c⟩ := m
  cases c with
  | parts l => rfl
  | str s =>
      unfold processMessage
      by_cases hms : (findall_b64_data_urls s).isEmpty <;> simp [hms]
  | other => rfl

theorem processMessages_roles (supply : Nat → String) :
    ∀ (l : List OAIMessage) (ctr : Nat),
    ((processMessages supply l ctr).1).map (fun m => m.role) =
      l.map (fun m => m.role) := by
  intro l
  induction l with
  | nil => intro ctr; rfl
  | cons m rest ih =>
      intro ctr
      show ((processMessages supply (m :: rest) ctr).1).map _ = _
      unfold processMessages
      simp only [List.map_cons]
      exact congrArg₂ _ (processMessage_role supply m ctr) (ih _)

theorem processMessages_length (supply : Nat → String) (l : List OAIMessage) (ctr : Nat) :
    (processMessages supply l ctr).1.length = l.length := by
  have h := congrArg List.length (processMessages_roles supply l ctr)
  simpa using h

theorem lastUserIndex_congr : ∀ (l1 l2 : List OAIMessage),
    l1.map (fun m => m.role) = l2.map (fun m => m.role) →
    lastUserIndex l1 = lastUserIndex l2 := by
  intro l1
  induction l1 with
  | nil =>
      intro l2 h
      cases l2 with
      | nil => rfl
      | cons b t => simp at h
  | cons a t ih =>
      intro l2 h
      cases l2 with
      | nil => simp at h
      | cons b t2 =>
          simp only [List.map_cons, List.cons.injEq] at h
          unfold lastUserIndex
          rw [ih t2 h.2, h.1]

theorem lastUserIndex_lt_length : ∀ (l : List OAIMessage) (k : Nat),
    lastUserIndex l = some k → k < l.length := by
  intro l
  induction l with
  | nil => intro k h; simp [lastUserIndex] at h
  | cons a t ih =>
      intro k h
      unfold lastUserIndex at h
      cases h2 : lastUserIndex t with
      | some k2 =>
          rw [h2] at h
          simp only [Option.some.injEq] at h
          subst h
          exact Nat.succ_lt_succ (ih k2 h2)
      | none =>
          rw [h2] at h
          by_cases hr : a.role = "user"
          · rw [if_pos hr] at h
            cases h
            exact Nat.succ_pos _
          · simp [hr] at h

theorem pyInsert_length {α : Type} : ∀ (l : List α) (n : Nat) (x : α), n ≤ l.length →
    (pyInsert l n x).length = l.length + 1 := by
  intro l
  induction l with
  | nil =>
      intro n x hn
      cases n with
      | zero => rfl
      | succ n2 => exact absurd hn (by simp)
  | cons a t ih =>
      intro n x hn
      cases n with
      | zero => rfl
      | succ n2 =>
          show (a :: pyInsert t n2 x).length = _
          simp only [List.length_cons]
          rw [ih n2 x (Nat.le_of_succ_le_succ hn)]

theorem pyInsert_get?_self {α : Type} : ∀ (l : List α) (n : Nat) (x : α), n ≤ l.length →
    (pyInsert l n x).get? n = some x := by
  intro l
  induction l with
  | nil =>
      intro n x hn
      cases n with
      | zero => rfl
      | succ n2 => exact absurd hn (by simp)
  | cons a t ih =>
      intro n x hn
      cases n with
      | zero => rfl
      | succ n2 =>
          show (a :: pyInsert t n2 x).get? (n2 + 1) = some x
          simp only [List.get?_cons_succ]
          exact ih n2 x (Nat.le_of_succ_le_succ hn)

theorem buildArenaGo_length (e m : String) (ids : List String) :
    ∀ (l : List OAIMessage) (i : Nat), (buildArenaGo e m ids i l).length = l.length := by
  intro l
  induction l with
  | nil => intro i; rfl
  | cons a t ih =>
      intro i
      show (arenaOfMessage e m ids i a :: buildArenaGo e m ids (i + 1) t).length = _
      simp only [List.length_cons]
      rw [ih]

theorem buildArenaGo_get? (e m : String) (ids : List String) :
    ∀ (l : List OAIMessage) (i j : Nat),
    (buildArenaGo e m ids i l).get? j =
      (l.get? j).map (fun msg => arenaOfMessage e m ids (i + j) msg) := by
  intro l
  induction l with
  | nil => intro i j; simp [buildArenaGo]
  | cons a t ih =>
      intro i j
      cases j with
      | zero => simp [buildArenaGo]
      | succ j2 =>
          show (arenaOfMessage e m ids i a :: buildArenaGo e m ids (i + 1) t).get? (j2 + 1) = _
          simp only [List.get?_cons_succ]
          rw [ih (i + 1) j2]
          have harith : i + 1 + j2 = i + (j2 + 1) := by omega
          rw [harith]

theorem mkIds_length (supply : Nat → String) (c n : Nat) :
    (mkIds supply c n).length = n := by
  simp [mkIds]

theorem mkIds_get? (supply : Nat → String) (c : Nat) {j n : Nat} (hj : j < n) :
    (mkIds supply c n).get? j = some (supply (c + j)) := by
  unfold mkIds
  rw [List.get?_map, List.get?_range hj]
  rfl

/-- The construction of the payload message list, spelled out (definitional). -/
theorem create_body_ok_messages (mi : ModelInfo) (req : OpenAIReq) (supply : Nat → String) :
    (create_lmarena_body_ok mi req supply).1.messages =
      buildArenaGo (supply 0) (mi.id.getD req.model)
        (mkIds supply (processMessages supply req.messages 1).2.2
          (processedWithSynthetic (mi.type.getD "chat")
            (processMessages supply req.messages 1).1).length) 0
        (processedWithSynthetic (mi.type.getD "chat")
          (processMessages supply req.messages 1).1) ++
      [placeholderMessage (supply 0) (mi.id.getD req.model)
        (userMessageIdOf supply
          (mkIds supply (processMessages supply req.messages 1).2.2
            (processedWithSynthetic (mi.type.getD "chat")
              (processMessages supply req.messages 1).1).length)
          ((processMessages supply req.messages 1).2.2 +
            (processedWithSynthetic (mi.type.getD "chat")
              (processMessages supply req.messages 1).1).length)).1
        (supply (userMessageIdOf supply
          (mkIds supply (processMessages supply req.messages 1).2.2
            (processedWithSynthetic (mi.type.getD "chat")
              (processMessages supply req.messages 1).1).length)
          ((processMessages supply req.messages 1).2.2 +
            (processedWithSynthetic (mi.type.getD "chat")
              (processMessages supply req.messages 1).1).length)).2)] := rfl

/-- C6: for a model of chat modality and a message list containing a
user-role message, the translator inserts the synthetic empty user message
immediately after the last user message (observable at index k+1 of the
payload message graph, with the list two entries longer than the input:
the insertion plus the placeholder); for image and video modalities no such
message is inserted (the list is exactly one entry longer). -/
theorem chat_synthetic_user_message :
    (∀ (registry : List (String × ModelInfo)) (req : OpenAIReq) (supply : Nat → String)
        (mi : ModelInfo) (k : Nat),
      alLookup registry req.model = some mi →
      mi.type.getD "chat" = "chat" →
      lastUserIndex req.messages = some k →
      ∃ payload files,
        create_lmarena_request_body registry req supply = Except.ok (payload, files) ∧
        payload.messages.length = req.messages.length + 2 ∧
        ∃ m, payload.messages.get? (k + 1) = some m ∧
          m.role = "user" ∧ m.content = Content.str " ") ∧
    (∀ (registry : List (String × ModelInfo)) (req : OpenAIReq) (supply : Nat → String)
        (mi : ModelInfo),
      alLookup registry req.model = some mi →
      (mi.type.getD "chat" = "image" ∨ mi.type.getD "chat" = "video") →
      ∃ payload files,
        create_lmarena_request_body registry req supply = Except.ok (payload, files) ∧
        payload.messages.length = req.messages.length + 1) := by
  constructor
  · intro registry req supply mi k hreg hchat hk
    have hroles := processMessages_roles supply req.messages 1
    have hplen := processMessages_length supply req.messages 1
    have hlui : lastUserIndex (processMessages supply req.messages 1).1 = some k := by
      rw [lastUserIndex_congr _ req.messages hroles, hk]
    have hklt : k < (processMessages supply req.messages 1).1.length :=
      lastUserIndex_lt_length _ k hlui
    have hkle : k + 1 ≤ (processMessages supply req.messages 1).1.length := hklt
    have hproc : processedWithSynthetic (mi.type.getD "chat")
        (processMessages supply req.messages 1).1 =
        pyInsert (processMessages supply req.messages 1).1 (k + 1)
          ⟨"user", Content.str " "⟩ := by
      unfold processedWithSynthetic
      rw [hchat, if_pos rfl, hlui]
    have hPlen : (processedWithSynthetic (mi.type.getD "chat")
        (processMessages supply req.messages 1).1).length =
        req.messages.length + 1 := by
      rw [hproc, pyInsert_length _ _ _ hkle, hplen]
    refine ⟨(create_lmarena_body_ok mi req supply).1,
      (create_lmarena_body_ok mi req supply).2, ?_, ?_, ?_⟩
    · unfold create_lmarena_request_body
      rw [hreg]
    · rw [create_body_ok_messages]
      simp only [List.length_append, List.length_cons, List.length_nil]
      rw [buildArenaGo_length, hPlen]
    · rw [create_body_ok_messages]
      have hjlt : k + 1 < (buildArenaGo (supply 0) (mi.id.getD req.model)
          (mkIds supply (processMessages supply req.messages 1).2.2
            (processedWithSynthetic (mi.type.getD "chat")
              (processMessages supply req.messages 1).1).length) 0
          (processedWithSynthetic (mi.type.getD "chat")
            (processMessages supply req.messages 1).1)).length := by
        rw [buildArenaGo_length, hPlen, hplen] at *
        omega
      rw [List.get?_append hjlt, buildArenaGo_get?, hproc,
        pyInsert_get?_self _ _ _ hkle]
      refine ⟨_, rfl, ?_, ?_⟩
      · simp [arenaOfMessage, coerceRole]
      · simp [arenaOfMessage]
  · intro registry req supply mi hreg hmod
    have hproc : processedWithSynthetic (mi.type.getD "chat")
        (processMessages supply req.messages 1).1 =
        (processMessages supply req.messages 1).1 := by
      unfold processedWithSynthetic
      rcases hmod with h | h <;> rw [h] <;> simp
    refine ⟨(create_lmarena_body_ok mi req supply).1,
      (create_lmarena_body_ok mi req supply).2, ?_, ?_⟩
    · unfold create_lmarena_request_body
      rw [hreg]
    · rw [create_body_ok_messages]
      simp only [List.length_append, List.length_cons, List.length_nil]
      rw [buildArenaGo_length, hproc, processMessages_length]

/-- Witness for the synthetic-message claim: a chat request with one user
message gains the empty user message at index 1, and an image request does
not. -/
theorem chat_synthetic_user_message_witness :
    alLookup cexRegistry cexReqC6.model = some ⟨some "mid", some "chat"⟩ ∧
      lastUserIndex cexReqC6.messages = some 0 ∧
      (∃ payload files,
        create_lmarena_request_body cexRegistry cexReqC6 uSupply =
          Except.ok (payload, files) ∧
        payload.messages.length = cexReqC6.messages.length + 2 ∧
        ∃ m, payload.messages.get? (0 + 1) = some m ∧
          m.role = "user" ∧ m.content = Content.str " ") ∧
      (∃ payload files,
        create_lmarena_request_body cexRegistryImage cexReqImage uSupply =
          Except.ok (payload, files) ∧
        payload.messages.length = cexReqImage.messages.length + 1) :=
  ⟨by decide, by decide,
   chat_synthetic_user_message.1 cexRegistry cexReqC6 uSupply
     ⟨some "mid", some "chat"⟩ 0 (by decide) (by decide) (by decide),
   chat_synthetic_user_message.2 cexRegistryImage cexReqImage uSupply
     ⟨some "iid", some "image"⟩ (by decide) (Or.inl (by decide))⟩

theorem pyInsert_ne_nil {α : Type} (l : List α) (n : Nat) (x : α) :
    pyInsert l n x ≠ [] := by
  cases l <;> cases n <;> simp [pyInsert]

theorem processedWithSynthetic_ne_nil (mo : String) (l : List OAIMessage) (h : l ≠ []) :
    processedWithSynthetic mo l ≠ [] := by
  unfold processedWithSynthetic
  by_cases hmo : mo = "chat"
  · rw [if_pos hmo]
    cases hl : lastUserIndex l with
    | none => exact h
    | some k => exact pyInsert_ne_nil _ _ _
  · rw [if_neg hmo]
    exact h

theorem buildArenaGo_getLast? (e m : String) (ids : List String) :
    ∀ (l : List OAIMessage) (i : Nat), l ≠ [] →
    ∃ msg, l.getLast? = some msg ∧
      (buildArenaGo e m ids i l).getLast? =
        some (arenaOfMessage e m ids (i + (l.length - 1)) msg) := by
  intro l
  induction l with
  | nil => intro i h; exact absurd rfl h
  | cons a t ih =>
      intro i _
      cases t with
      | nil =>
          exact ⟨a, rfl, rfl⟩
      | cons b t2 =>
          obtain ⟨msg, hm, hb⟩ := ih (i + 1) (by simp)
          refine ⟨msg, ?_, ?_⟩
          · rw [List.getLast?_cons_cons]
            exact hm
          · show (arenaOfMessage e m ids i a ::
                buildArenaGo e m ids (i + 1) (b :: t2)).getLast? = _
            have hne : buildArenaGo e m ids (i + 1) (b :: t2) ≠ [] := by
              have hl := buildArenaGo_length e m ids (b :: t2) (i + 1)
              intro hcon
              rw [hcon] at hl
              simp at hl
            cases hbl : buildArenaGo e m ids (i + 1) (b :: t2) with
            | nil => exact absurd hbl hne
            | cons y ys =>
                rw [List.getLast?_cons_cons]
                rw [hbl] at hb
                rw [hb]
                have harith : i + 1 + ((b :: t2).length - 1) =
                    i + ((a :: b :: t2).length - 1) := by
                  simp only [List.length_cons]
                  omega
                rw [harith]

theorem mkIds_getLast? (supply : Nat → String) (c : Nat) {n : Nat} (hn : n ≠ 0) :
    (mkIds supply c n).getLast? = some (supply (c + (n - 1))) := by
  rw [List.getLast?_eq_get?, mkIds_length]
  exact mkIds_get? supply c (by omega)

theorem mkIds_getD (supply : Nat → String) (c : Nat) {j n : Nat} (hj : j < n) :
    (mkIds supply c n).getD j "" = supply (c + j) := by
  rw [List.getD_eq_get?, mkIds_get? supply c hj]
  rfl

/-- C7 counterexample: for the chat request whose messages are a user turn
followed by an assistant turn, the translator parents the final placeholder
to the id u3 of the literal last message (the assistant turn), not to the id
u2 of the last user-role message (the synthetic empty user message), so the
claim as stated fails at this input. -/
theorem placeholder_parent_counterexample :
    (create_lmarena_request_body cexRegistry cexReqC7 uSupply).toOption.map
        (fun pr => pr.1.messages.getLast?.map (fun m => m.parentMessageIds)) =
      some (some ["u3"]) ∧
    (create_lmarena_request_body cexRegistry cexReqC7 uSupply).toOption.map
        (fun pr => spec_lastUserMessageId pr.1.messages) = some (some "u2") ∧
    ¬(["u3"] = ["u2"]) := by
  decide

/-- C7 as amended: the final appended placeholder assistant message has empty
content and bears the target model id, and its parent-id array contains
exactly the id of the message immediately preceding it, that is the final
message of the processed list whatever its role; this coincides with the
last user message only when the processed list ends with a user-role
message. -/
theorem placeholder_parent_amended (registry : List (String × ModelInfo))
    (req : OpenAIReq) (supply : Nat → String) (mi : ModelInfo)
    (hreg : alLookup registry req.model = some mi) (hne : req.messages ≠ []) :
    ∃ payload files lastM prev,
      create_lmarena_request_body registry req supply = Except.ok (payload, files) ∧
      payload.messages.getLast? = some lastM ∧
      lastM.content = Content.str "" ∧
      lastM.modelId = some (mi.id.getD req.model) ∧
      payload.messages.dropLast.getLast? = some prev ∧
      lastM.parentMessageIds = [prev.id] := by
  have hpne : (processMessages supply req.messages 1).1 ≠ [] := by
    intro hcon
    have := processMessages_length supply req.messages 1
    rw [hcon] at this
    exact hne (List.length_eq_zero.mp this.symm)
  have hPne : processedWithSynthetic (mi.type.getD "chat")
      (processMessages supply req.messages 1).1 ≠ [] :=
    processedWithSynthetic_ne_nil _ _ hpne
  have hPn : (processedWithSynthetic (mi.type.getD "chat")
      (processMessages supply req.messages 1).1).length ≠ 0 := by
    intro hcon
    exact hPne (List.length_eq_zero.mp hcon)
  obtain ⟨msg, hmsg, hlast⟩ := buildArenaGo_getLast? (supply 0) (mi.id.getD req.model)
    (mkIds supply (processMessages supply req.messages 1).2.2
      (processedWithSynthetic (mi.type.getD "chat")
        (processMessages supply req.messages 1).1).length)
    (processedWithSynthetic (mi.type.getD "chat")
      (processMessages supply req.messages 1).1) 0 hPne
  have humi : (userMessageIdOf supply
      (mkIds supply (processMessages supply req.messages 1).2.2
        (processedWithSynthetic (mi.type.getD "chat")
          (processMessages supply req.messages 1).1).length)
      ((processMessages supply req.messages 1).2.2 +
        (processedWithSynthetic (mi.type.getD "chat")
          (processMessages supply req.messages 1).1).length)).1 =
      supply ((processMessages supply req.messages 1).2.2 +
        ((processedWithSynthetic (mi.type.getD "chat")
          (processMessages supply req.messages 1).1).length - 1)) := by
    unfold userMessageIdOf
    rw [mkIds_getLast? supply _ hPn]
  refine ⟨(create_lmarena_body_ok mi req supply).1,
    (create_lmarena_body_ok mi req supply).2,
    placeholderMessage (supply 0) (mi.id.getD req.model)
      (userMessageIdOf supply
        (mkIds supply (processMessages supply req.messages 1).2.2
          (processedWithSynthetic (mi.type.getD "chat")
            (processMessages supply req.messages 1).1).length)
        ((processMessages supply req.messages 1).2.2 +
          (processedWithSynthetic (mi.type.getD "chat")
            (processMessages supply req.messages 1).1).length)).1
      (supply (userMessageIdOf supply
        (mkIds supply (processMessages supply req.messages 1).2.2
          (processedWithSynthetic (mi.type.getD "chat")
            (processMessages supply req.messages 1).1).length)
        ((processMessages supply req.messages 1).2.2 +
          (processedWithSynthetic (mi.type.getD "chat")
            (processMessages supply req.messages 1).1).length)).2),
    arenaOfMessage (supply 0) (mi.id.getD req.model)
      (mkIds supply (processMessages supply req.messages 1).2.2
        (processedWithSynthetic (mi.type.getD "chat")
          (processMessages supply req.messages 1).1).length)
      (0 + ((processedWithSynthetic (mi.type.getD "chat")
        (processMessages supply req.messages 1).1).length - 1)) msg,
    ?_, ?_, rfl, rfl, ?_, ?_⟩
  · unfold create_lmarena_request_body
    rw [hreg]
  · rw [create_body_ok_messages]
    exact List.getLast?_concat _
  · rw [create_body_ok_messages, List.dropLast_concat]
    exact hlast
  · show [_] = [_]
    rw [humi]
    unfold arenaOfMessage
    simp only
    rw [mkIds_getD supply _ (by omega)]
    simp

/-- Witness for the amended placeholder claim at the concrete two-turn chat
request. -/
theorem placeholder_parent_amended_witness :
    alLookup cexRegistry cexReqC7.model = some ⟨some "mid", some "chat"⟩ ∧
      cexReqC7.messages ≠ [] ∧
      (∃ payload files lastM prev,
        create_lmarena_request_body cexRegistry cexReqC7 uSupply =
          Except.ok (payload, files) ∧
        payload.messages.getLast? = some lastM ∧
        lastM.content = Content.str "" ∧
        lastM.modelId = some ((⟨some "mid", some "chat"⟩ : ModelInfo).id.getD cexReqC7.model) ∧
        payload.messages.dropLast.getLast? = some prev ∧
        lastM.parentMessageIds = [prev.id]) :=
  ⟨by decide, by decide,
   placeholder_parent_amended cexRegistry cexReqC7 uSupply ⟨some "mid", some "chat"⟩
     (by decide) (by decide)⟩

/-- C8 counterexample: at a request with one embedded png data url the
extracted attachment stores the base64 body under the key data and names the
file upload-u1 followed by a dot and the Python repr of the full split list
(the subscript selecting the subtype is missing in the source), not the
claimed upload-u1.png form. -/
theorem attachment_extraction_counterexample :
    (create_lmarena_request_body cexRegistry cexReqC8 uSupply).toOption.map
        (fun pr => pr.2) =
      some [{ fileName := buggyPngName, contentType := "image/png",
              data := "iVBORw0KGgo=" }] ∧
    ¬(buggyPngName = "upload-u1.png") := by
  decide

/-- C8 as amended: every attachment is built by makeFileUpload, whose
fileName is upload- plus the uuid plus a dot plus the Python str of the full
mime split (not the bare subtype) and whose base64 body sits under the data
key; a multimodal array yields exactly the text parts as text (joined by
newline, data urls never contribute) and one attachment per matching
image_url in order, each consuming one uuid; a string content with at least
one match is replaced by the scan residue stripped, with one attachment per
match in order. -/
theorem attachment_extraction_amended :
    (∀ mime b64 uuid, makeFileUpload mime b64 uuid =
        { fileName := "upload-" ++ uuid ++ "." ++ pyStrList (pySplitSlash mime),
          contentType := mime, data := b64 }) ∧
    (∀ (supply : Nat → String) (l : List Part) (ctr : Nat),
      processParts supply l ctr =
        (spec_textParts l, buildUploads supply (spec_dataUrlMatches l) ctr,
          ctr + (spec_dataUrlMatches l).length)) ∧
    (∀ (supply : Nat → String) (r s : String) (ctr : Nat),
      findall_b64_data_urls s ≠ [] →
      processMessage supply ⟨r, Content.str s⟩ ctr =
        (⟨r, Content.str (pyStrip (sub_b64_data_urls s))⟩,
         buildUploads supply (findall_b64_data_urls s) ctr,
         ctr + (findall_b64_data_urls s).length)) := by
  refine ⟨fun mime b64 uuid => rfl, ?_, ?_⟩
  · intro supply l
    induction l with
    | nil => intro ctr; rfl
    | cons p rest ih =>
        intro ctr
        cases p with
        | text s =>
            simp only [processParts, ih ctr, spec_dataUrlMatches, spec_textParts]
        | image_url u =>
            cases hm : matchImageDataUrl u with
            | some mb =>
                simp only [processParts, hm, ih (ctr + 1), spec_dataUrlMatches,
                  spec_textParts, buildUploads, List.length_cons, Prod.mk.injEq]
                refine ⟨trivial, trivial, ?_⟩
                omega
            | none =>
                simp only [processParts, hm, ih ctr, spec_dataUrlMatches, spec_textParts]
        | other =>
            simp only [processParts, ih ctr, spec_dataUrlMatches, spec_textParts]
  · intro supply r s ctr hms
    unfold processMessage
    simp only
    rw [if_neg (by simpa [List.isEmpty_iff] using hms)]

/-- Witness for the amended attachment claim: a string content with one
embedded data url is scanned, stripped and converted. -/
theorem attachment_extraction_amended_witness :
    findall_b64_data_urls strWithUrl ≠ [] ∧
      processMessage uSupply ⟨"user", Content.str strWithUrl⟩ 0 =
        (⟨"user", Content.str (pyStrip (sub_b64_data_urls strWithUrl))⟩,
         buildUploads uSupply (findall_b64_data_urls strWithUrl) 0,
         0 + (findall_b64_data_urls strWithUrl).length) :=
  ⟨by decide,
   attachment_extraction_amended.2.2 uSupply "user" strWithUrl 0 (by decide)⟩

end ProxyServer


